import Mathlib

/-!
# umbrella-light: HTTP/HTTPS client and scheduler mock

A shallow embedding of `src/api_client.c`, `src/main.c` (`app_main`) and
`test_host/mocks/freertos.c`.

Conventions.
* A C string is the list of its characters before the terminating NUL; one
  `Char` stands for one byte.  A `const char *` that may be `NULL` is an
  `Option (List Char)`.
* `int` values are `Int`.  `size_t` is 32 bits wide on the ESP8266 target.
* External collaborators (lwIP sockets, mbedTLS, `malloc`) are mocks: a record
  of canned results.  A looping call consumes a script (a list of results), one
  entry per invocation; when the script runs out while the code is still
  looping, the run has no result (`none`).
-/

set_option maxRecDepth 100000

namespace UmbrellaLight

/-! ## C string primitives -/

/-- The C library `strchr`: the suffix of `s` that starts at the first
occurrence of `c`, or `none` (a null pointer) when `c` does not occur. -/
def strchr : List Char → Char → Option (List Char)
  | [], _ => none
  | x :: xs, c => if x = c then some (x :: xs) else strchr xs c

/-- The test `strncmp(s, lit, n) == 0` for NUL-free `s` and `lit`. -/
def strncmp_eq (s lit : List Char) (n : Nat) : Bool :=
  s.take n == lit.take n

/-- Unsigned 32-bit `size_t` subtraction. -/
def size_sub (a b : Nat) : Nat := (a + 2 ^ 32 - b % 2 ^ 32) % 2 ^ 32

/-- The C string left in `dst` by `strncpy(dst, src, n); dst[n] = 0`. -/
def strncpy_term (src : List Char) (n : Nat) : List Char := src.take n

/-! ## URL parser -/

/-- The two output buffers of `parse_https_url` after a successful call. -/
structure ParsedURL where
  host : List Char
  path : List Char
deriving DecidableEq, Repr

/-- The pointer `p` of `parse_https_url` after the two `strncmp` tests: the URL
without a leading `https://` or, failing that, `http://`. -/
def strip_scheme (url : List Char) : List Char :=
  if strncmp_eq url "https://".toList 8 then url.drop 8
  else if strncmp_eq url "http://".toList 7 then url.drop 7
  else url

/-- The function `parse_https_url` of `api_client.c`.  `Except.ok` stands for
the return value `0` together with the contents of the two buffers,
`Except.error r` for the return value `r`. -/
def parse_https_url (url : Option (List Char)) (host_len path_len : Nat) :
    Except Int ParsedURL :=
  match url with
  | none => .error (-1)
  | some url =>
    let p := strip_scheme url
    match strchr p '/' with
    | some slash =>
      let hlen := p.length - slash.length
      if hlen ≥ host_len then .error (-1)
      else .ok ⟨p.take hlen, strncpy_term slash (size_sub path_len 1)⟩
    | none =>
      if p.length ≥ host_len then .error (-1)
      else .ok ⟨p, strncpy_term "/".toList (size_sub path_len 1)⟩

/-- The `int` returned by `parse_https_url`. -/
def parse_ret : Except Int ParsedURL → Int
  | .ok _ => 0
  | .error r => r

/-! ## Request builder -/

/-- The text formatted by
`"GET %s HTTP/1.1\r\nHost: %s\r\nConnection: close\r\n\r\n"` with `path, host`. -/
def request_text (path host : List Char) : List Char :=
  "GET ".toList ++ path ++ " HTTP/1.1\r\nHost: ".toList ++ host
    ++ "\r\nConnection: close\r\n\r\n".toList

/-- The value returned by `snprintf`: the length of the full formatted text,
or a negative value when that length is not representable as an `int`. -/
def snprintf_ret (text : List Char) : Int :=
  if text.length > 2147483647 then -1 else (text.length : Int)

/-- The request-building step shared by `api_client_get` and
`api_client_get_https`: `snprintf` into `req[512]` followed by the test
`req_len <= 0 || req_len >= (int)sizeof(req)`.  `none` is the
"request too long" branch; otherwise `req` holds the whole formatted text. -/
def build_request (path host : List Char) : Option (List Char) :=
  let req_len := snprintf_ret (request_text path host)
  if req_len ≤ 0 ∨ req_len ≥ 512 then none else some (request_text path host)

/-! ## Calls to external collaborators -/

/-- One observable call made by the client.  `printf` carries the text written
to standard output. -/
inductive Event
  | gethostbyname (host : List Char)
  | socket
  | connect (port : Nat)
  | send (req : List Char)
  | recv (len : Int)
  | close
  | mbedtls_ssl_init
  | mbedtls_ssl_config_init
  | mbedtls_ctr_drbg_init
  | mbedtls_entropy_init
  | mbedtls_ctr_drbg_seed
  | mbedtls_ssl_config_defaults
  | mbedtls_ssl_conf_authmode
  | mbedtls_ssl_conf_rng
  | mbedtls_ssl_setup
  | mbedtls_ssl_set_hostname (host : List Char)
  | mbedtls_ssl_set_bio
  | mbedtls_ssl_handshake
  | mbedtls_strerror (ret : Int)
  | mbedtls_ssl_write (req : List Char)
  | malloc (size : Int)
  | mbedtls_ssl_read (offset len ret : Int)
  | store_nul (index : Int)
  | free
  | mbedtls_ssl_close_notify
  | mbedtls_ssl_free
  | mbedtls_ssl_config_free
  | mbedtls_ctr_drbg_free
  | mbedtls_entropy_free
  | printf (text : List Char)
deriving DecidableEq, Repr

/-- The result of one request: the calls made, in order, and the value
returned (`none` when a mock script ran out while the code was still
looping, so the call did not return). -/
structure Run where
  trace : List Event
  status : Option Int
deriving DecidableEq, Repr

/-- The text written to standard output during a run. -/
def stdout (t : List Event) : List Char :=
  (t.map fun e => match e with
    | .printf s => s
    | _ => []).flatten

/-- The number of `close(sock)` calls in a trace. -/
def close_count (t : List Event) : Nat := t.count Event.close

/-- The C string held by a byte buffer: the bytes before the first NUL. -/
def cstr (bytes : List Char) : List Char :=
  bytes.takeWhile (fun c => c ≠ Char.ofNat 0)

/-- The conversion `%d` of `printf`. -/
def fmt_d (n : Int) : List Char := (toString n).toList

/-! ## The mock TLS engine and network of `api_client_get_https` -/

/-- Canned results of the collaborators of `api_client_get_https`.
`WANT_READ` and `WANT_WRITE` are the values of `MBEDTLS_ERR_SSL_WANT_READ` and
`MBEDTLS_ERR_SSL_WANT_WRITE`, which come from the mbedTLS headers.
`handshake` and `reads` are the successive results of
`mbedtls_ssl_handshake` and `mbedtls_ssl_read`; `response` is the byte stream
that the successful reads store in the buffer; `strerror` is the text that
`mbedtls_strerror` leaves in `errbuf`. -/
structure TlsMock where
  WANT_READ : Int
  WANT_WRITE : Int
  gethostbyname : List Char → Bool
  socket : Int
  connect : Int
  ctr_drbg_seed : Int
  ssl_config_defaults : Int
  ssl_setup : Int
  ssl_set_hostname : Int
  handshake : List Int
  strerror : Int → List Char
  ssl_write : List Char → Int
  malloc : Bool
  reads : List Int
  response : List Char

/-- The constant `BUF_SIZE` of `api_client_get_https`. -/
def BUF_SIZE : Int := 2048

/-- Outcome of the handshake loop. -/
inductive Handshake
  | established
  | failed (ret : Int)
deriving DecidableEq, Repr

/-- The loop `while ((ret = mbedtls_ssl_handshake(&ssl)) != 0)` with its body:
a result other than the two would-block signals prints the diagnostic and
leaves through `goto cleanup_ssl`. -/
def handshake_loop (m : TlsMock) : List Int → List Event × Option Handshake
  | [] => ([], none)
  | ret :: rest =>
    if ret ≠ 0 then
      if ret ≠ m.WANT_READ ∧ ret ≠ m.WANT_WRITE then
        ([Event.mbedtls_ssl_handshake, Event.mbedtls_strerror ret,
          Event.printf ("api_client_get_https: handshake failed: ".toList
            ++ cstr (m.strerror ret) ++ "\n".toList)],
         some (Handshake.failed ret))
      else
        (Event.mbedtls_ssl_handshake :: (handshake_loop m rest).1,
         (handshake_loop m rest).2)
    else ([Event.mbedtls_ssl_handshake], some Handshake.established)

/-- The loop `for (;;)` that reads the response, started with cursor `total`:
the calls made and the final value of `total`. -/
def read_loop (m : TlsMock) : List Int → Int → List Event × Option Int
  | [], _ => ([], none)
  | ret :: rest, total =>
    let call := Event.mbedtls_ssl_read total (BUF_SIZE - 1 - total) ret
    if ret = m.WANT_READ ∨ ret = m.WANT_WRITE then
      (call :: (read_loop m rest total).1, (read_loop m rest total).2)
    else if ret ≤ 0 then ([call], some total)
    else if total + ret ≥ BUF_SIZE - 1 then ([call], some (total + ret))
    else (call :: (read_loop m rest (total + ret)).1, (read_loop m rest (total + ret)).2)

/-- The statements after `cleanup_socket:`. -/
def cleanup_socket : List Event := [Event.close]

/-- The statements after `cleanup_drbg:`. -/
def cleanup_drbg : List Event :=
  [Event.mbedtls_ctr_drbg_free, Event.mbedtls_entropy_free] ++ cleanup_socket

/-- The statements after `cleanup_ssl:`. -/
def cleanup_ssl : List Event :=
  [Event.mbedtls_ssl_close_notify, Event.mbedtls_ssl_free, Event.mbedtls_ssl_config_free]
    ++ cleanup_drbg

/-- The part of `api_client_get_https` after a successful `mbedtls_ssl_write`:
allocation, read loop, printing of the response, `free`, then the cleanup
labels and `return 0`. -/
def https_read_response (m : TlsMock) : Run :=
  if ¬ m.malloc then
    ⟨[Event.malloc BUF_SIZE, Event.printf "api_client_get_https: malloc failed\n".toList]
      ++ cleanup_ssl, some 0⟩
  else
    match read_loop m m.reads 0 with
    | (calls, none) => ⟨Event.malloc BUF_SIZE :: calls, none⟩
    | (calls, some total) =>
      let buf := cstr (m.response.take total.toNat)
      ⟨Event.malloc BUF_SIZE :: calls ++
        [Event.store_nul total,
         Event.printf ("api_client_get_https: received ".toList ++ fmt_d total
           ++ " bytes:\n".toList ++ buf ++ "\n".toList),
         (match strchr buf (Char.ofNat 123) with
          | some json => Event.printf ("api_client_get_https: JSON body:\n".toList
              ++ json ++ "\n".toList)
          | none => Event.printf "api_client_get_https: no JSON body found\n".toList),
         Event.free] ++ cleanup_ssl, some 0⟩

/-- The part of `api_client_get_https` from "Build and send HTTP request" on. -/
def https_send_request (m : TlsMock) (host path : List Char) : Run :=
  match build_request path host with
  | none =>
    ⟨Event.printf "api_client_get_https: request too long\n".toList :: cleanup_ssl, some 0⟩
  | some req =>
    if m.ssl_write req ≤ 0 then
      ⟨[Event.mbedtls_ssl_write req,
        Event.printf ("api_client_get_https: ssl_write failed: ".toList
          ++ fmt_d (m.ssl_write req) ++ "\n".toList)] ++ cleanup_ssl, some 0⟩
    else
      ⟨Event.mbedtls_ssl_write req :: (https_read_response m).trace,
       (https_read_response m).status⟩

/-- The part of `api_client_get_https` from "mbedTLS setup" to the final
`return 0`, on a connected socket. -/
def https_session (m : TlsMock) (host path : List Char) : Run :=
  let init := [Event.mbedtls_ssl_init, Event.mbedtls_ssl_config_init,
    Event.mbedtls_ctr_drbg_init, Event.mbedtls_entropy_init, Event.mbedtls_ctr_drbg_seed]
  if m.ctr_drbg_seed ≠ 0 then
    ⟨init ++ [Event.printf "api_client_get_https: ctr_drbg_seed failed\n".toList]
      ++ cleanup_socket, some 0⟩
  else if m.ssl_config_defaults ≠ 0 then
    ⟨init ++ [Event.mbedtls_ssl_config_defaults,
      Event.printf "api_client_get_https: ssl_config_defaults failed\n".toList]
      ++ cleanup_drbg, some 0⟩
  else
    let conf := init ++ [Event.mbedtls_ssl_config_defaults, Event.mbedtls_ssl_conf_authmode,
      Event.mbedtls_ssl_conf_rng, Event.mbedtls_ssl_setup]
    if m.ssl_setup ≠ 0 then
      ⟨conf ++ [Event.printf "api_client_get_https: ssl_setup failed\n".toList]
        ++ cleanup_drbg, some 0⟩
    else
      let bound := conf ++ [Event.mbedtls_ssl_set_hostname host, Event.mbedtls_ssl_set_bio]
      match handshake_loop m m.handshake with
      | (calls, none) => ⟨bound ++ calls, none⟩
      | (calls, some (Handshake.failed _)) => ⟨bound ++ calls ++ cleanup_ssl, some 0⟩
      | (calls, some Handshake.established) =>
        ⟨bound ++ calls ++ (https_send_request m host path).trace,
         (https_send_request m host path).status⟩

/-- The function `api_client_get_https` of `api_client.c`. -/
def api_client_get_https (m : TlsMock) (url : Option (List Char)) : Run :=
  match url with
  | none => ⟨[], some (-1)⟩
  | some u =>
    match parse_https_url (some u) 128 256 with
    | .error _ => ⟨[Event.printf "api_client_get_https: parse URL failed\n".toList], some (-2)⟩
    | .ok parsed =>
      if ¬ m.gethostbyname parsed.host then
        ⟨[Event.gethostbyname parsed.host,
          Event.printf ("api_client_get_https: DNS lookup failed for ".toList
            ++ parsed.host ++ "\n".toList)], some (-3)⟩
      else if m.socket < 0 then
        ⟨[Event.gethostbyname parsed.host, Event.socket,
          Event.printf "api_client_get_https: socket() failed\n".toList], some (-4)⟩
      else if m.connect ≠ 0 then
        ⟨[Event.gethostbyname parsed.host, Event.socket, Event.connect 443,
          Event.printf "api_client_get_https: connect() failed\n".toList, Event.close],
         some (-5)⟩
      else
        ⟨[Event.gethostbyname parsed.host, Event.socket, Event.connect 443]
          ++ (https_session m parsed.host parsed.path).trace,
         (https_session m parsed.host parsed.path).status⟩

/-! ## The plain client `api_client_get` -/

/-- The constant `RECV_BUF_SIZE`. -/
def RECV_BUF_SIZE : Int := 1024

/-- One result of the mock transport's `recv`: either the bytes it stored in
the buffer (the call returns their number, `0` for an empty list, which is
end of stream) or an error (the call returns `-1`). -/
inductive Recv
  | data (bytes : List Char)
  | error
deriving DecidableEq, Repr

/-- The `int` returned by `recv`. -/
def Recv.ret : Recv → Int
  | .data bytes => (bytes.length : Int)
  | .error => -1

/-- The bytes that `recv` stored in the buffer. -/
def Recv.bytes : Recv → List Char
  | .data bytes => bytes
  | .error => []

/-- Canned results of the collaborators of `api_client_get`.  `errno` is the
value of `errno` at the point where a diagnostic reads it. -/
structure PlainMock where
  gethostbyname : List Char → Bool
  socket : Int
  connect : Int
  send : List Char → Int
  recv : List Recv
  errno : Int

/-- The loop `while ((r = recv(sock, buf, sizeof(buf) - 1, 0)) > 0)` with its
body: the calls made and the last value of `r`.  A mock that stores more bytes
than were requested writes past `buf`; such a run has no result. -/
def recv_loop : List Recv → List Event × Option Int
  | [] => ([], none)
  | x :: rest =>
    if x.ret > 0 then
      if x.ret > RECV_BUF_SIZE - 1 then ([Event.recv (RECV_BUF_SIZE - 1)], none)
      else
        (Event.recv (RECV_BUF_SIZE - 1) :: Event.store_nul x.ret :: Event.printf (cstr x.bytes)
          :: (recv_loop rest).1, (recv_loop rest).2)
    else ([Event.recv (RECV_BUF_SIZE - 1)], some x.ret)

/-- The function `api_client_get` of `api_client.c`. -/
def api_client_get (m : PlainMock) (host path : Option (List Char)) : Run :=
  match host, path with
  | some host, some path =>
    if ¬ m.gethostbyname host then
      ⟨[Event.gethostbyname host,
        Event.printf ("api_client_get: DNS lookup failed for ".toList ++ host ++ "\n".toList)],
       some (-2)⟩
    else if m.socket < 0 then
      ⟨[Event.gethostbyname host, Event.socket,
        Event.printf ("api_client_get: socket() failed: ".toList ++ fmt_d m.errno
          ++ "\n".toList)], some (-3)⟩
    else if m.connect ≠ 0 then
      ⟨[Event.gethostbyname host, Event.socket, Event.connect 80,
        Event.printf ("api_client_get: connect() failed: ".toList ++ fmt_d m.errno
          ++ "\n".toList), Event.close], some (-4)⟩
    else
      let opened := [Event.gethostbyname host, Event.socket, Event.connect 80]
      match build_request path host with
      | none =>
        ⟨opened ++ [Event.printf "api_client_get: request too long\n".toList, Event.close],
         some (-5)⟩
      | some req =>
        if m.send req ≠ (req.length : Int) then
          ⟨opened ++ [Event.send req,
            Event.printf ("api_client_get: send() sent ".toList ++ fmt_d (m.send req)
              ++ " of ".toList ++ fmt_d req.length ++ " bytes\n".toList), Event.close],
           some (-6)⟩
        else
          let banner := Event.printf ("api_client_get: response from ".toList ++ host ++ path
            ++ ":\n".toList)
          match recv_loop m.recv with
          | (calls, none) => ⟨opened ++ [Event.send req, banner] ++ calls, none⟩
          | (calls, some r) =>
            ⟨opened ++ [Event.send req, banner] ++ calls
              ++ (if r < 0 then
                    [Event.printf ("api_client_get: recv() failed: ".toList ++ fmt_d m.errno
                      ++ "\n".toList)]
                  else [])
              ++ [Event.printf "\n--- end response ---\n".toList, Event.close], some 0⟩
  | _, _ => ⟨[], some (-1)⟩

/-! ## The scheduler mock (`test_host/mocks/freertos.c`) and `app_main` -/

/-- The mock state: the static `last_created_task_name` (`none` is `NULL`). -/
structure MockState where
  last_created_task_name : Option (List Char)
deriving DecidableEq, Repr

/-- The mock `xTaskCreate`: remembers the name (the text printed is not part
of the state). -/
def xTaskCreate (name : List Char) (_stack_size _priority : Nat) (_s : MockState) :
    MockState :=
  ⟨some name⟩

/-- The test helper `was_task_created`. -/
def was_task_created (s : MockState) (name : List Char) : Int :=
  match s.last_created_task_name with
  | none => 0
  | some last => if last = name then 1 else 0

/-- The test helper `reset_task_creation_state`. -/
def reset_task_creation_state (_s : MockState) : MockState := ⟨none⟩

/-- The function `app_main` of `main.c`, linked against the mock. -/
def app_main (s : MockState) : MockState :=
  xTaskCreate "blink_task".toList 256 5 s

/-! ## Words of the specification, for comparison with the code -/

/-- The host component of a URL in the words of the specification: everything
of the remainder before the first `/`. -/
def url_host (url : List Char) : List Char :=
  (strip_scheme url).takeWhile (fun c => c != '/')

/-- The path component of a URL in the words of the specification: everything
of the remainder from the first `/` onward (empty when there is none). -/
def url_path (url : List Char) : List Char :=
  (strip_scheme url).dropWhile (fun c => c != '/')

/-- The bytes that a read script hands over before it closes the stream: the
sum of its positive results up to the first result that ends the loop. -/
def delivered (m : TlsMock) : List Int → Int
  | [] => 0
  | ret :: rest =>
    if ret = m.WANT_READ ∨ ret = m.WANT_WRITE then delivered m rest
    else if ret ≤ 0 then 0
    else ret + delivered m rest

/-- The final answer of a handshake script: its first result that is 0 or is
not a would-block signal (`none` when every result asks to retry). -/
def handshake_answer (m : TlsMock) (hs : List Int) : Option Int :=
  hs.find? (fun r => decide (r = 0 ∨ (r ≠ m.WANT_READ ∧ r ≠ m.WANT_WRITE)))

/-- A read script that lets the read loop end: it holds a closing result (not
a would-block signal and not positive), or it hands over enough bytes to fill
the buffer. -/
def reads_end (m : TlsMock) (rs : List Int) : Prop :=
  (∃ r ∈ rs, ¬ (r = m.WANT_READ ∨ r = m.WANT_WRITE) ∧ r ≤ 0) ∨
  BUF_SIZE - 1 ≤ delivered m rs

/-- The engine-release calls. -/
def is_engine_release (e : Event) : Bool :=
  e = Event.mbedtls_ssl_free ∨ e = Event.mbedtls_ssl_config_free ∨
  e = Event.mbedtls_ctr_drbg_free ∨ e = Event.mbedtls_entropy_free

/-! ## Concrete mocks used to exercise the theorems -/

/-- The values of the two would-block codes in the mbedTLS headers, with a
network and engine on which every call succeeds and the peer sends
`HTTP/1.1 200 OK` followed by a small JSON body. -/
def mock_ok : TlsMock where
  WANT_READ := -0x6900
  WANT_WRITE := -0x6880
  gethostbyname := fun _ => true
  socket := 3
  connect := 0
  ctr_drbg_seed := 0
  ssl_config_defaults := 0
  ssl_setup := 0
  ssl_set_hostname := 0
  handshake := [-0x6900, -0x6880, 0]
  strerror := fun _ => "UNKNOWN ERROR CODE".toList
  ssl_write := fun req => req.length
  malloc := true
  reads := [10, -0x6900, 13, 0]
  response := "HTTP/1.1 200 OK\r\n\r\n\x7b\x7d\r\n".toList

/-- A URL whose path component has 256 bytes. -/
def long_path_url : List Char := "https://h/".toList ++ List.replicate 255 'a'

/-- A URL whose host component has 128 bytes. -/
def long_host_url : List Char := "https://".toList ++ List.replicate 128 'h' ++ "/x".toList

/-- The calls of `api_client_get_https` from `mbedtls_ssl_init` up to
`mbedtls_ssl_set_bio`, when seeding, configuration and setup succeed. -/
def tls_setup_calls (host : List Char) : List Event :=
  [Event.mbedtls_ssl_init, Event.mbedtls_ssl_config_init, Event.mbedtls_ctr_drbg_init,
   Event.mbedtls_entropy_init, Event.mbedtls_ctr_drbg_seed, Event.mbedtls_ssl_config_defaults,
   Event.mbedtls_ssl_conf_authmode, Event.mbedtls_ssl_conf_rng, Event.mbedtls_ssl_setup,
   Event.mbedtls_ssl_set_hostname host, Event.mbedtls_ssl_set_bio]

/-- A call that belongs to the body of a session: neither `close(sock)` nor an
engine-release call nor a handshake step. -/
def is_body_call (e : Event) : Bool :=
  e ≠ Event.close ∧ is_engine_release e = false ∧ e ≠ Event.mbedtls_ssl_handshake

/-- The mock of `mock_ok` with a DRBG seeding that fails. -/
def mock_seed_fails : TlsMock := { mock_ok with ctr_drbg_seed := -0x34 }

/-- The mock of `mock_ok` with `mbedtls_ssl_config_defaults` failing. -/
def mock_defaults_fail : TlsMock := { mock_ok with ssl_config_defaults := -0x7100 }

/-- The mock of `mock_ok` with a handshake that fails on the first step with
the certificate-verification error code. -/
def mock_handshake_fails : TlsMock := { mock_ok with handshake := [-0x2700] }

/-- The mock of `mock_ok` with a peer that offers 2000 bytes, a would-block
signal, 47 bytes and 500 bytes. -/
def mock_big_response : TlsMock := { mock_ok with reads := [2000, -0x6900, 47, 500] }

/-- The URL that `main.c` requests. -/
def api_url : List Char := "https://sydney-umbrella.fly.dev/api".toList

/-- A mock transport on which every call succeeds and the peer sends
`HTTP/1.1 200 OK\r\n\r\nOK` in two pieces, then closes. -/
def mock_plain : PlainMock where
  gethostbyname := fun _ => true
  socket := 3
  connect := 0
  send := fun req => req.length
  recv := [Recv.data "HTTP/1.1 200 OK\r\n".toList, Recv.data "\r\nOK".toList, Recv.data []]
  errno := 0

/-- The mock of `mock_plain` with a peer that sends the three bytes `a`, NUL,
`b` and then closes. -/
def mock_plain_nul : PlainMock :=
  { mock_plain with recv := [Recv.data ['a', Char.ofNat 0, 'b'], Recv.data []] }

/-- The first line that `api_client_get` prints once the request is sent. -/
def banner (host path : List Char) : List Char :=
  "api_client_get: response from ".toList ++ host ++ path ++ ":\n".toList

/-- The calls made by `api_client_get` for one non-empty piece of the
response. -/
def chunk_calls (c : List Char) : List Event :=
  [Event.recv (RECV_BUF_SIZE - 1), Event.store_nul c.length, Event.printf (cstr c)]

/-! ## Lemmas on the URL parser -/

theorem strchr_eq_dropWhile (s : List Char) (c : Char) :
    strchr s c = if s.dropWhile (fun x => x != c) = [] then none
      else some (s.dropWhile (fun x => x != c)) := by
  induction s with
  | nil => rfl
  | cons x xs ih =>
    by_cases hx : x = c
    · subst hx
      simp [strchr]
    · simp [strchr, hx, ih]

theorem length_sub_dropWhile (s : List Char) (f : Char → Bool) :
    s.length - (s.dropWhile f).length = (s.takeWhile f).length := by
  have h := List.takeWhile_append_dropWhile f s
  have h2 : (s.takeWhile f).length + (s.dropWhile f).length = s.length := by
    rw [← List.length_append, h]
  omega

theorem take_length_takeWhile (s : List Char) (f : Char → Bool) :
    s.take (s.takeWhile f).length = s.takeWhile f := by
  have h := List.takeWhile_append_dropWhile f s
  calc s.take (s.takeWhile f).length
      = (s.takeWhile f ++ s.dropWhile f).take (s.takeWhile f).length := by rw [h]
    _ = s.takeWhile f := List.take_left _ _

theorem takeWhile_eq_self_of_dropWhile_nil (s : List Char) (f : Char → Bool)
    (h : s.dropWhile f = []) : s.takeWhile f = s := by
  have h2 := List.takeWhile_append_dropWhile f s
  rw [h, List.append_nil] at h2
  exact h2

/-- The parser in closed form: it fails exactly when the host component is
128 bytes or longer, and otherwise returns the host component and the first
255 bytes of the path component (`/` when there is none). -/
theorem parse_https_url_eq (url : List Char) :
    parse_https_url (some url) 128 256 =
      if 128 ≤ (url_host url).length then .error (-1)
      else .ok ⟨url_host url,
        if url_path url = [] then "/".toList else (url_path url).take 255⟩ := by
  have hs : size_sub 256 1 = 255 := by decide
  simp only [parse_https_url, url_host, url_path, strchr_eq_dropWhile, hs, strncpy_term]
  by_cases hd : (strip_scheme url).dropWhile (fun x => x != '/') = []
  · simp only [hd, if_true]
    rw [takeWhile_eq_self_of_dropWhile_nil _ _ hd]
    have : List.take 255 "/".toList = "/".toList := by decide
    rw [this]
  · simp only [hd, if_false]
    rw [length_sub_dropWhile, take_length_takeWhile]

theorem strip_scheme_https (r : List Char) :
    strip_scheme ("https://".toList ++ r) = r := by
  simp [strip_scheme, strncmp_eq]

theorem strip_scheme_http (r : List Char) :
    strip_scheme ("http://".toList ++ r) = r := by
  cases r with
  | nil => simp [strip_scheme, strncmp_eq]
  | cons a r => simp [strip_scheme, strncmp_eq]

theorem takeWhile_append_of_not_mem (h p : List Char) (hh : '/' ∉ h)
    (hp : p = [] ∨ p.head? = some '/') :
    (h ++ p).takeWhile (fun c => c != '/') = h ∧
    (h ++ p).dropWhile (fun c => c != '/') = p := by
  induction h with
  | nil =>
    rcases hp with hp | hp
    · subst hp; simp
    · cases p with
      | nil => simp at hp
      | cons a q =>
        simp at hp
        subst hp
        simp
  | cons x xs ih =>
    have hx : x ≠ '/' := fun e => hh (by simp [e])
    have hxs : '/' ∉ xs := fun e => hh (by simp [e])
    have := ih hxs
    simp [hx, this.1, this.2]

theorem url_host_not_mem (url : List Char) : '/' ∉ url_host url := by
  intro h
  have := List.mem_takeWhile_imp h
  simp at this

theorem url_path_head (url : List Char) (h : url_path url ≠ []) :
    (url_path url).head? = some '/' := by
  unfold url_path at *
  cases hd : List.dropWhile (fun c => c != '/') (strip_scheme url) with
  | nil => exact absurd hd h
  | cons a q =>
    have := List.head_dropWhile_not (fun c => c != '/') (strip_scheme url) (by rw [hd]; simp)
    simp [hd] at this
    simp [this]

/-! ## C1: parsing a well-formed URL -/

/-- C1: for every URL `scheme ++ h ++ p` with `scheme` one of `https://` and
`http://`, `h` free of `/` and shorter than 128, and `p` empty or starting
with `/` and shorter than 256, `parse_https_url` returns 0 with host `h` and
path `p`, or path `/` when `p` is empty. -/
theorem parse_https_url_splits (scheme h p : List Char)
    (hs : scheme = "https://".toList ∨ scheme = "http://".toList)
    (hh : '/' ∉ h) (hlen : h.length < 128)
    (hp : p = [] ∨ (p.head? = some '/' ∧ p.length < 256)) :
    parse_ret (parse_https_url (some (scheme ++ h ++ p)) 128 256) = 0 ∧
    parse_https_url (some (scheme ++ h ++ p)) 128 256 =
      .ok ⟨h, if p = [] then "/".toList else p⟩ := by
  have hstrip : strip_scheme (scheme ++ h ++ p) = h ++ p := by
    rcases hs with hs | hs
    · rw [hs, List.append_assoc, strip_scheme_https]
    · rw [hs, List.append_assoc, strip_scheme_http]
  have hp' : p = [] ∨ p.head? = some '/' := hp.imp id (fun x => x.1)
  have hsplit := takeWhile_append_of_not_mem h p hh hp'
  have hhost : url_host (scheme ++ h ++ p) = h := by
    rw [url_host, hstrip, hsplit.1]
  have hpath : url_path (scheme ++ h ++ p) = p := by
    rw [url_path, hstrip, hsplit.2]
  have hnot : ¬ 128 ≤ h.length := by omega
  have htake : p ≠ [] → List.take 255 p = p := by
    intro hne
    rcases hp with hp | hp
    · exact absurd hp hne
    · exact List.take_of_length_le (by omega)
  have key : parse_https_url (some (scheme ++ h ++ p)) 128 256 =
      .ok ⟨h, if p = [] then "/".toList else p⟩ := by
    rw [parse_https_url_eq, hhost, hpath, if_neg hnot]
    by_cases hpe : p = []
    · simp [hpe]
    · simp [hpe, htake hpe]
  exact ⟨by rw [key]; rfl, key⟩

/-- C1 at `https://example.com/status`. -/
theorem parse_https_url_splits_witness :
    parse_ret (parse_https_url (some ("https://".toList ++ "example.com".toList
      ++ "/status".toList)) 128 256) = 0 ∧
    parse_https_url (some ("https://".toList ++ "example.com".toList
      ++ "/status".toList)) 128 256 =
      .ok ⟨"example.com".toList,
        if "/status".toList = [] then "/".toList else "/status".toList⟩ :=
  parse_https_url_splits "https://".toList "example.com".toList "/status".toList
    (Or.inl rfl) (by decide) (by decide) (Or.inr ⟨by decide, by decide⟩)

/-! ## C9: the data-model invariant on parser results -/

/-- C9, as stated, fails: `https:///x` parses successfully with an empty host. -/
theorem parse_https_url_empty_host :
    parse_https_url (some "https:///x".toList) 128 256 = .ok ⟨[], "/x".toList⟩ ∧
    ¬ (∀ url u, parse_https_url (some url) 128 256 = .ok u →
        u.host ≠ [] ∧ u.path.head? = some '/') := by
  have h : parse_https_url (some "https:///x".toList) 128 256 = .ok ⟨[], "/x".toList⟩ := rfl
  refine ⟨h, fun hall => ?_⟩
  exact (hall _ _ h).1 rfl

/-- C9, amended: on every URL that `parse_https_url` accepts, the path starts
with `/`, the host is free of `/` and shorter than 128 bytes, and the host is
empty exactly when what follows the scheme is empty or starts with `/`. -/
theorem parse_https_url_invariant (url : List Char) (u : ParsedURL)
    (h : parse_https_url (some url) 128 256 = .ok u) :
    u.path.head? = some '/' ∧ '/' ∉ u.host ∧ u.host.length < 128 ∧
    (u.host = [] ↔ (strip_scheme url = [] ∨ (strip_scheme url).head? = some '/')) := by
  rw [parse_https_url_eq] at h
  by_cases hlen : 128 ≤ (url_host url).length
  · rw [if_pos hlen] at h
    cases h
  · rw [if_neg hlen] at h
    injection h with h
    subst h
    refine ⟨?_, url_host_not_mem url, by simpa using hlen, ?_⟩
    · by_cases hp : url_path url = []
      · simp [hp]
      · simp only [hp, if_false]
        have := url_path_head url hp
        cases hq : url_path url with
        | nil => exact absurd hq hp
        | cons a q =>
          rw [hq] at this
          simpa using this
    · show url_host url = [] ↔ _
      unfold url_host
      cases strip_scheme url with
      | nil => simp
      | cons a q =>
        by_cases ha : a = '/'
        · simp [ha]
        · simp [ha]

/-- C9, amended, at `http://a`. -/
theorem parse_https_url_invariant_witness :
    (ParsedURL.mk "a".toList "/".toList).path.head? = some '/' ∧
    '/' ∉ (ParsedURL.mk "a".toList "/".toList).host ∧
    (ParsedURL.mk "a".toList "/".toList).host.length < 128 ∧
    ((ParsedURL.mk "a".toList "/".toList).host = [] ↔
      (strip_scheme "http://a".toList = [] ∨
       (strip_scheme "http://a".toList).head? = some '/')) :=
  parse_https_url_invariant "http://a".toList ⟨"a".toList, "/".toList⟩ rfl

/-! ## C2: components that do not fit -/

/-- C2, as stated, fails: a URL whose path component has 256 bytes is not
rejected.  The parser returns 0 with the path cut to 255 bytes and
`api_client_get_https` goes on to the DNS lookup. -/
theorem parse_https_url_long_path_accepted :
    (url_path long_path_url).length = 256 ∧
    parse_ret (parse_https_url (some long_path_url) 128 256) = 0 ∧
    parse_https_url (some long_path_url) 128 256 =
      .ok ⟨"h".toList, '/' :: List.replicate 254 'a'⟩ ∧
    (api_client_get_https mock_ok (some long_path_url)).trace.head? =
      some (Event.gethostbyname "h".toList) ∧
    (api_client_get_https mock_ok (some long_path_url)).status ≠ some (-2) := by
  refine ⟨rfl, rfl, rfl, rfl, ?_⟩
  decide

/-- C2, amended: a URL whose host component has 128 bytes or more is rejected
(`parse_https_url` returns -1) and `api_client_get_https` returns -2 having
made no call but the `printf` of the diagnostic; a URL whose host component
fits is accepted whatever the length of its path component, the path being
cut to its first 255 bytes. -/
theorem host_overflow_rejected (m : TlsMock) (url : List Char) :
    (128 ≤ (url_host url).length →
      parse_ret (parse_https_url (some url) 128 256) = -1 ∧
      api_client_get_https m (some url) =
        ⟨[Event.printf "api_client_get_https: parse URL failed\n".toList], some (-2)⟩) ∧
    ((url_host url).length < 128 →
      parse_https_url (some url) 128 256 =
        .ok ⟨url_host url,
          if url_path url = [] then "/".toList else (url_path url).take 255⟩) := by
  constructor
  · intro h
    have hp : parse_https_url (some url) 128 256 = .error (-1) := by
      rw [parse_https_url_eq, if_pos h]
    refine ⟨by rw [hp]; rfl, ?_⟩
    simp only [api_client_get_https, hp]
  · intro h
    rw [parse_https_url_eq, if_neg (by omega)]

/-- C2, amended, at a URL with a 128-byte host and at one with a one-byte host. -/
theorem host_overflow_rejected_witness :
    (parse_ret (parse_https_url (some long_host_url) 128 256) = -1 ∧
      api_client_get_https mock_ok (some long_host_url) =
        ⟨[Event.printf "api_client_get_https: parse URL failed\n".toList], some (-2)⟩) ∧
    parse_https_url (some long_path_url) 128 256 =
      .ok ⟨url_host long_path_url,
        if url_path long_path_url = [] then "/".toList
        else (url_path long_path_url).take 255⟩ :=
  ⟨(host_overflow_rejected mock_ok long_host_url).1 (by decide),
   (host_overflow_rejected mock_ok long_path_url).2 (by decide)⟩

/-! ## C10: the scheduler mock and `app_main` -/

/-- C10: from every mock state, after `reset_task_creation_state` the query
`was_task_created` is false (0) for every name, and after `app_main` the query
for `blink_task` is true (1). -/
theorem app_main_creates_blink_task (s : MockState) :
    (∀ n, was_task_created (reset_task_creation_state s) n = 0) ∧
    was_task_created (app_main (reset_task_creation_state s)) "blink_task".toList = 1 := by
  constructor
  · intro n
    rfl
  · simp [app_main, xTaskCreate, was_task_created]

/-! ## C4: the request builder -/

theorem split_at_space (p1 p2 r1 r2 : List Char) (h1 : ' ' ∉ p1) (h2 : ' ' ∉ p2)
    (h : p1 ++ ' ' :: r1 = p2 ++ ' ' :: r2) : p1 = p2 ∧ r1 = r2 := by
  induction p1 generalizing p2 with
  | nil =>
    cases p2 with
    | nil => simpa using h
    | cons b q =>
      simp at h
      exact absurd h.1 (fun e => h2 (by simp [← e]))
  | cons a p ih =>
    cases p2 with
    | nil =>
      simp at h
      exact absurd h.1 (fun e => h1 (by simp [e]))
    | cons b q =>
      simp at h
      have hp : ' ' ∉ p := fun e => h1 (by simp [e])
      have hq : ' ' ∉ q := fun e => h2 (by simp [e])
      have := ih q hp hq h.2
      exact ⟨by rw [h.1, this.1], this.2⟩

theorem request_text_injective (p1 h1 p2 h2 : List Char) (hp1 : ' ' ∉ p1) (hp2 : ' ' ∉ p2)
    (h : request_text p1 h1 = request_text p2 h2) : p1 = p2 ∧ h1 = h2 := by
  unfold request_text at h
  have e : " HTTP/1.1\r\nHost: ".toList = ' ' :: "HTTP/1.1\r\nHost: ".toList := rfl
  rw [e] at h
  simp only [List.append_assoc] at h
  have h' := List.append_cancel_left h
  simp only [List.cons_append] at h'
  obtain ⟨hp, hr⟩ := split_at_space _ _ _ _ hp1 hp2 h'
  refine ⟨hp, ?_⟩
  have hr' := List.append_cancel_left hr
  exact List.append_cancel_right hr'

theorem build_request_some (path host req : List Char)
    (h : build_request path host = some req) :
    req = request_text path host ∧ (request_text path host).length < 512 := by
  unfold build_request at h
  simp only at h
  split at h
  · cases h
  · rename_i hc
    injection h with h
    refine ⟨h.symm, ?_⟩
    unfold snprintf_ret at hc
    split at hc <;> omega

/-- C4, as stated, fails: two different (path, host) pairs give the same
request, because the path may itself contain the text that separates path
from host. -/
theorem build_request_not_injective :
    build_request "/a".toList "x HTTP/1.1\r\nHost: y".toList =
      build_request "/a HTTP/1.1\r\nHost: x".toList "y".toList ∧
    build_request "/a".toList "x HTTP/1.1\r\nHost: y".toList ≠ none ∧
    ("/a".toList, "x HTTP/1.1\r\nHost: y".toList) ≠
      ("/a HTTP/1.1\r\nHost: x".toList, "y".toList) := by
  decide

/-- C4, amended: every request that is built (the formatted text is shorter
than 512 bytes) is exactly `GET path HTTP/1.1\r\nHost: host\r\nConnection:
close\r\n\r\n`; a text of 512 bytes or more builds no request; and two
(path, host) pairs whose paths contain no space and that build the same
request are equal. -/
theorem build_request_exact (path host : List Char) :
    (∀ req, build_request path host = some req →
      req = "GET ".toList ++ path ++ " HTTP/1.1\r\nHost: ".toList ++ host
        ++ "\r\nConnection: close\r\n\r\n".toList) ∧
    (path.length + host.length + 44 < 512 → build_request path host ≠ none) ∧
    (512 ≤ path.length + host.length + 44 → build_request path host = none) ∧
    (∀ path2 host2 req, ' ' ∉ path → ' ' ∉ path2 →
      build_request path host = some req → build_request path2 host2 = some req →
      path = path2 ∧ host = host2) := by
  have hlen : (request_text path host).length = path.length + host.length + 44 := by
    simp [request_text]
    omega
  refine ⟨fun req h => (build_request_some _ _ _ h).1, ?_, ?_, ?_⟩
  · intro h
    simp only [build_request, snprintf_ret, hlen]
    have h1 : ¬ (path.length + host.length + 44 > 2147483647) := by omega
    simp only [h1, if_false]
    have h2 : ¬ (((path.length + host.length + 44 : Nat) : Int) ≤ 0 ∨
        ((path.length + host.length + 44 : Nat) : Int) ≥ 512) := by omega
    simp only [h2, if_false]
    simp
  · intro h
    simp only [build_request, snprintf_ret, hlen]
    split
    · simp
    · have h2 : (((path.length + host.length + 44 : Nat) : Int) ≤ 0 ∨
        ((path.length + host.length + 44 : Nat) : Int) ≥ 512) := by omega
      simp only [h2, if_true]
  · intro path2 host2 req hp1 hp2 h1 h2
    have e1 := (build_request_some _ _ _ h1).1
    have e2 := (build_request_some _ _ _ h2).1
    exact request_text_injective _ _ _ _ hp1 hp2 (e1.symm.trans e2)

/-- C4, amended, at path `/status` and host `example.com`. -/
theorem build_request_exact_witness :
    build_request "/status".toList "example.com".toList ≠ none ∧
    ("/status".toList = "/status".toList ∧ "example.com".toList = "example.com".toList) :=
  ⟨(build_request_exact "/status".toList "example.com".toList).2.1 (by decide),
   (build_request_exact "/status".toList "example.com".toList).2.2.2
     "/status".toList "example.com".toList
     (request_text "/status".toList "example.com".toList)
     (by decide) (by decide) (by decide) (by decide)⟩

/-! ## The response read loop -/

theorem read_loop_want (m : TlsMock) (ret : Int) (rest : List Int) (total : Int)
    (h : ret = m.WANT_READ ∨ ret = m.WANT_WRITE) :
    read_loop m (ret :: rest) total =
      (Event.mbedtls_ssl_read total (BUF_SIZE - 1 - total) ret :: (read_loop m rest total).1,
       (read_loop m rest total).2) := by
  simp only [read_loop, h, if_true]

theorem read_loop_stop (m : TlsMock) (ret : Int) (rest : List Int) (total : Int)
    (h : ¬ (ret = m.WANT_READ ∨ ret = m.WANT_WRITE)) (h0 : ret ≤ 0) :
    read_loop m (ret :: rest) total =
      ([Event.mbedtls_ssl_read total (BUF_SIZE - 1 - total) ret], some total) := by
  simp only [read_loop, h, h0, if_true, if_false]

theorem read_loop_full (m : TlsMock) (ret : Int) (rest : List Int) (total : Int)
    (h : ¬ (ret = m.WANT_READ ∨ ret = m.WANT_WRITE)) (h0 : ¬ ret ≤ 0)
    (h1 : total + ret ≥ BUF_SIZE - 1) :
    read_loop m (ret :: rest) total =
      ([Event.mbedtls_ssl_read total (BUF_SIZE - 1 - total) ret], some (total + ret)) := by
  simp only [read_loop, h, h0, h1, if_true, if_false]

theorem read_loop_more (m : TlsMock) (ret : Int) (rest : List Int) (total : Int)
    (h : ¬ (ret = m.WANT_READ ∨ ret = m.WANT_WRITE)) (h0 : ¬ ret ≤ 0)
    (h1 : ¬ total + ret ≥ BUF_SIZE - 1) :
    read_loop m (ret :: rest) total =
      (Event.mbedtls_ssl_read total (BUF_SIZE - 1 - total) ret
        :: (read_loop m rest (total + ret)).1, (read_loop m rest (total + ret)).2) := by
  simp only [read_loop, h, h0, h1, if_false]

/-- The loop invariant of the read loop: entered with `0 ≤ total < BUF_SIZE - 1`
and fed results that never exceed the requested length, it keeps every request
and the final cursor inside the buffer, and it stops at `BUF_SIZE - 1` when the
script hands over enough bytes. -/
theorem read_loop_inv (m : TlsMock) (rs : List Int) :
    ∀ total : Int, 0 ≤ total → total < BUF_SIZE - 1 →
    (∀ off len ret, Event.mbedtls_ssl_read off len ret ∈ (read_loop m rs total).1 →
      0 < ret → ret ≤ len) →
    (∀ off len ret, Event.mbedtls_ssl_read off len ret ∈ (read_loop m rs total).1 →
      0 ≤ off ∧ off ≤ BUF_SIZE - 1 ∧ 1 ≤ len ∧ off + len ≤ BUF_SIZE - 1) ∧
    (∀ t, (read_loop m rs total).2 = some t → 0 ≤ t ∧ t ≤ BUF_SIZE - 1) ∧
    (BUF_SIZE - 1 ≤ total + delivered m rs →
      (read_loop m rs total).2 = some (BUF_SIZE - 1)) := by
  induction rs with
  | nil =>
    intro total h0 h1 _
    refine ⟨?_, ?_, ?_⟩
    · intro off len ret hmem
      simp [read_loop] at hmem
    · intro t ht
      simp [read_loop] at ht
    · intro hd
      simp only [delivered] at hd
      omega
  | cons ret rest ih =>
    intro total h0 h1 hvalid
    have hhead : ∀ off len r, Event.mbedtls_ssl_read off len r =
        Event.mbedtls_ssl_read total (BUF_SIZE - 1 - total) ret →
        0 ≤ off ∧ off ≤ BUF_SIZE - 1 ∧ 1 ≤ len ∧ off + len ≤ BUF_SIZE - 1 := by
      intro off len r e
      injection e with e1 e2 e3
      subst e1 e2
      omega
    by_cases hw : ret = m.WANT_READ ∨ ret = m.WANT_WRITE
    · rw [read_loop_want m ret rest total hw] at hvalid ⊢
      have ih' := ih total h0 h1 (fun off len r hmem hr =>
        hvalid off len r (List.mem_cons_of_mem _ hmem) hr)
      refine ⟨?_, ih'.2.1, ?_⟩
      · intro off len r hmem
        rcases List.mem_cons.mp hmem with e | hmem'
        · exact hhead off len r e
        · exact ih'.1 off len r hmem'
      · intro hd
        simp only [delivered, hw, if_true] at hd
        exact ih'.2.2 hd
    · by_cases hz : ret ≤ 0
      · rw [read_loop_stop m ret rest total hw hz]
        refine ⟨?_, ?_, ?_⟩
        · intro off len r hmem
          exact hhead off len r (List.mem_singleton.mp hmem)
        · intro t ht
          injection ht with ht
          omega
        · intro hd
          simp only [delivered, hw, hz, if_true, if_false] at hd
          omega
      · have hle : ret ≤ BUF_SIZE - 1 - total := by
          by_cases hf : total + ret ≥ BUF_SIZE - 1
          · rw [read_loop_full m ret rest total hw hz hf] at hvalid
            exact hvalid _ _ _ (List.mem_singleton.mpr rfl) (by omega)
          · omega
        by_cases hf : total + ret ≥ BUF_SIZE - 1
        · rw [read_loop_full m ret rest total hw hz hf]
          refine ⟨?_, ?_, ?_⟩
          · intro off len r hmem
            exact hhead off len r (List.mem_singleton.mp hmem)
          · intro t ht
            injection ht with ht
            omega
          · intro _
            have : total + ret = BUF_SIZE - 1 := by omega
            rw [this]
        · rw [read_loop_more m ret rest total hw hz hf] at hvalid ⊢
          have ih' := ih (total + ret) (by omega) (by omega) (fun off len r hmem hr =>
            hvalid off len r (List.mem_cons_of_mem _ hmem) hr)
          refine ⟨?_, ih'.2.1, ?_⟩
          · intro off len r hmem
            rcases List.mem_cons.mp hmem with e | hmem'
            · exact hhead off len r e
            · exact ih'.1 off len r hmem'
          · intro hd
            simp only [delivered, hw, hz, if_false] at hd
            exact ih'.2.2 (by omega)

/-! ## Shape of a TLS session -/

theorem parse_ok_build_request (url : List Char) (u : ParsedURL)
    (h : parse_https_url (some url) 128 256 = .ok u) :
    build_request u.path u.host = some (request_text u.path u.host) := by
  rw [parse_https_url_eq] at h
  by_cases hlen : 128 ≤ (url_host url).length
  · rw [if_pos hlen] at h
    cases h
  · rw [if_neg hlen] at h
    injection h with h
    have hpath : u.path.length ≤ 255 := by
      rw [← h]
      show (if url_path url = [] then "/".toList else (url_path url).take 255).length ≤ 255
      split
      · decide
      · simp
    have hhost : u.host.length < 128 := by
      rw [← h]
      show (url_host url).length < 128
      omega
    have hne := (build_request_exact u.path u.host).2.1 (by omega)
    cases hb : build_request u.path u.host with
    | none => exact absurd hb hne
    | some req => rw [(build_request_some _ _ _ hb).1]

theorem https_reach (m : TlsMock) (url : List Char) (u : ParsedURL)
    (hparse : parse_https_url (some url) 128 256 = .ok u)
    (hdns : m.gethostbyname u.host = true) (hsock : 0 ≤ m.socket) (hconn : m.connect = 0) :
    api_client_get_https m (some url) =
      ⟨[Event.gethostbyname u.host, Event.socket, Event.connect 443]
        ++ (https_session m u.host u.path).trace,
       (https_session m u.host u.path).status⟩ := by
  simp only [api_client_get_https, hparse, hdns, not_lt.mpr hsock, hconn]
  simp

theorem handshake_loop_want (m : TlsMock) (sig rest : List Int)
    (hr : m.WANT_READ ≠ 0) (hw : m.WANT_WRITE ≠ 0)
    (hsig : ∀ r ∈ sig, r = m.WANT_READ ∨ r = m.WANT_WRITE) :
    handshake_loop m (sig ++ rest) =
      (List.replicate sig.length Event.mbedtls_ssl_handshake ++ (handshake_loop m rest).1,
       (handshake_loop m rest).2) := by
  induction sig with
  | nil => simp
  | cons r sig ih =>
    have hrw : r = m.WANT_READ ∨ r = m.WANT_WRITE := hsig r (by simp)
    have hne : r ≠ 0 := by
      rcases hrw with e | e
      · rw [e]; exact hr
      · rw [e]; exact hw
    have hnot : ¬ (r ≠ m.WANT_READ ∧ r ≠ m.WANT_WRITE) := by
      rcases hrw with e | e
      · exact fun c => c.1 e
      · exact fun c => c.2 e
    have ih' := ih (fun x hx => hsig x (by simp [hx]))
    simp only [List.cons_append, handshake_loop, hne, hnot, ne_eq, not_false_eq_true, if_true,
      if_false, List.append_eq, ih', List.length_cons, List.replicate_succ]

theorem handshake_loop_hard (m : TlsMock) (e : Int) (rest : List Int)
    (h0 : e ≠ 0) (h1 : e ≠ m.WANT_READ) (h2 : e ≠ m.WANT_WRITE) :
    handshake_loop m (e :: rest) =
      ([Event.mbedtls_ssl_handshake, Event.mbedtls_strerror e,
        Event.printf ("api_client_get_https: handshake failed: ".toList
          ++ cstr (m.strerror e) ++ "\n".toList)],
       some (Handshake.failed e)) := by
  simp [handshake_loop, h0, h1, h2]

theorem handshake_loop_events (m : TlsMock) (hs : List Int) :
    ∀ e ∈ (handshake_loop m hs).1, e ≠ Event.close ∧ is_engine_release e = false := by
  induction hs with
  | nil => simp [handshake_loop]
  | cons r rest ih =>
    intro e he
    simp only [handshake_loop] at he
    split at he
    · split at he
      · simp at he
        rcases he with he | he | he <;> subst he <;> simp [is_engine_release]
      · rcases List.mem_cons.mp he with he | he
        · subst he
          simp [is_engine_release]
        · exact ih e he
    · simp at he
      subst he
      simp [is_engine_release]

theorem read_loop_events (m : TlsMock) (rs : List Int) :
    ∀ total, ∀ e ∈ (read_loop m rs total).1, ∃ off len ret, e = Event.mbedtls_ssl_read off len ret := by
  induction rs with
  | nil => simp [read_loop]
  | cons r rest ih =>
    intro total e he
    simp only [read_loop] at he
    split at he
    · rcases List.mem_cons.mp he with he | he
      · exact ⟨_, _, _, he⟩
      · exact ih _ e he
    · split at he
      · exact ⟨_, _, _, List.mem_singleton.mp he⟩
      · split at he
        · exact ⟨_, _, _, List.mem_singleton.mp he⟩
        · rcases List.mem_cons.mp he with he | he
          · exact ⟨_, _, _, he⟩
          · exact ih _ e he

/-- A response phase that returns is a body followed by the statements after
`cleanup_ssl:`. -/
theorem https_read_response_shape (m : TlsMock)
    (hret : (https_read_response m).status ≠ none) :
    ∃ body, (https_read_response m).trace = body ++ cleanup_ssl ∧
      ∀ e ∈ body, is_body_call e = true := by
  unfold https_read_response at hret ⊢
  by_cases hm : m.malloc = true
  · simp only [hm, not_true_eq_false, if_false] at hret ⊢
    cases hrl : read_loop m m.reads 0 with
    | mk calls res =>
      cases res with
      | none => simp [hrl] at hret
      | some total =>
        simp only []
        refine ⟨_, rfl, ?_⟩
        intro e he
        simp only [List.mem_cons, List.mem_append, List.not_mem_nil, or_false] at he
        have hcalls : ∀ e ∈ calls, ∃ off len ret, e = Event.mbedtls_ssl_read off len ret := by
          have := read_loop_events m m.reads 0
          rw [hrl] at this
          exact this
        rcases he with (he | he) | he | he | he | he
        · subst he; simp [is_body_call, is_engine_release]
        · obtain ⟨o, l, r, e1⟩ := hcalls e he
          subst e1; simp [is_body_call, is_engine_release]
        · subst he; simp [is_body_call, is_engine_release]
        · subst he; simp [is_body_call, is_engine_release]
        · subst he
          split <;> simp [is_body_call, is_engine_release]
        · subst he; simp [is_body_call, is_engine_release]
  · simp only [hm, Bool.false_eq_true, not_false_eq_true, if_true]
    refine ⟨_, rfl, ?_⟩
    intro e he
    simp at he
    rcases he with he | he <;> subst he <;> simp [is_body_call, is_engine_release]

theorem cleanup_ssl_body : ∀ e ∈ cleanup_ssl, e ≠ Event.mbedtls_ssl_handshake ∧
    (∀ req, e ≠ Event.mbedtls_ssl_write req) ∧
    (∀ off len ret, e ≠ Event.mbedtls_ssl_read off len ret) := by
  intro e he
  simp [cleanup_ssl, cleanup_drbg, cleanup_socket] at he
  rcases he with he | he | he | he | he | he <;> subst he <;> simp

theorem https_read_response_no_handshake (m : TlsMock) :
    ∀ e ∈ (https_read_response m).trace, e ≠ Event.mbedtls_ssl_handshake := by
  by_cases hret : (https_read_response m).status = none
  · unfold https_read_response at hret ⊢
    by_cases hm : m.malloc = true
    · simp only [hm, not_true_eq_false, if_false] at hret ⊢
      cases hrl : read_loop m m.reads 0 with
      | mk calls res =>
        cases res with
        | some total => simp [hrl] at hret
        | none =>
          simp only []
          intro e he
          have hcalls : ∀ e ∈ calls, ∃ off len ret, e = Event.mbedtls_ssl_read off len ret := by
            have := read_loop_events m m.reads 0
            rw [hrl] at this
            exact this
          rcases List.mem_cons.mp he with he | he
          · subst he; simp
          · obtain ⟨o, l, r, e1⟩ := hcalls e he
            subst e1; simp
    · simp [hm] at hret
  · obtain ⟨body, hb, hbody⟩ := https_read_response_shape m hret
    intro e he
    rw [hb] at he
    rcases List.mem_append.mp he with he | he
    · have := hbody e he
      simp [is_body_call] at this
      exact this.2.2
    · exact (cleanup_ssl_body e he).1

/-- A request phase that returns is a body followed by the statements after
`cleanup_ssl:`. -/
theorem https_send_request_shape (m : TlsMock) (host path : List Char)
    (hret : (https_send_request m host path).status ≠ none) :
    ∃ body, (https_send_request m host path).trace = body ++ cleanup_ssl ∧
      ∀ e ∈ body, is_body_call e = true := by
  unfold https_send_request at hret ⊢
  cases hb : build_request path host with
  | none =>
    simp only []
    refine ⟨[_], rfl, ?_⟩
    intro e he
    simp at he
    subst he
    simp [is_body_call, is_engine_release]
  | some req =>
    simp only [hb] at hret ⊢
    by_cases hw : m.ssl_write req ≤ 0
    · simp only [hw, if_true]
      refine ⟨_, rfl, ?_⟩
      intro e he
      simp at he
      rcases he with he | he <;> subst he <;> simp [is_body_call, is_engine_release]
    · simp only [hw, if_false] at hret ⊢
      obtain ⟨body, hbd, hbody⟩ := https_read_response_shape m hret
      refine ⟨Event.mbedtls_ssl_write req :: body, by rw [hbd]; rfl, ?_⟩
      intro e he
      rcases List.mem_cons.mp he with he | he
      · subst he; simp [is_body_call, is_engine_release]
      · exact hbody e he

/-- When the request fits, the request phase starts with the TLS write and makes
no further handshake step. -/
theorem https_send_request_write (m : TlsMock) (host path req : List Char)
    (hb : build_request path host = some req) :
    ∃ post, (https_send_request m host path).trace = Event.mbedtls_ssl_write req :: post ∧
      Event.mbedtls_ssl_handshake ∉ post := by
  unfold https_send_request
  simp only [hb]
  by_cases hw : m.ssl_write req ≤ 0
  · simp only [hw, if_true]
    refine ⟨_, rfl, ?_⟩
    intro he
    simp at he
    exact (cleanup_ssl_body _ he).1 rfl
  · simp only [hw, if_false]
    exact ⟨_, rfl, fun he => https_read_response_no_handshake m _ he rfl⟩

/-- The session once seeding, configuration and setup have succeeded. -/
theorem https_session_handshake (m : TlsMock) (host path : List Char)
    (hseed : m.ctr_drbg_seed = 0) (hdef : m.ssl_config_defaults = 0)
    (hsetup : m.ssl_setup = 0) :
    https_session m host path =
      match handshake_loop m m.handshake with
      | (calls, none) => ⟨tls_setup_calls host ++ calls, none⟩
      | (calls, some (Handshake.failed _)) =>
        ⟨tls_setup_calls host ++ calls ++ cleanup_ssl, some 0⟩
      | (calls, some Handshake.established) =>
        ⟨tls_setup_calls host ++ calls ++ (https_send_request m host path).trace,
         (https_send_request m host path).status⟩ := by
  simp only [https_session, hseed, hdef, hsetup, ne_eq, not_true_eq_false, if_false,
    tls_setup_calls]
  rfl

/-! ## C3: bounds of the read loop -/

theorem store_nul_index (m : TlsMock) (i : Int)
    (h : Event.store_nul i ∈ (https_read_response m).trace) :
    (read_loop m m.reads 0).2 = some i := by
  unfold https_read_response at h
  by_cases hm : m.malloc = true
  · simp only [hm, not_true_eq_false, if_false] at h
    have hcalls := read_loop_events m m.reads 0
    cases hrl : read_loop m m.reads 0 with
    | mk calls res =>
      rw [hrl] at hcalls h
      have hnot : Event.store_nul i ∉ calls := by
        intro hc
        obtain ⟨o, l, r, e⟩ := hcalls _ hc
        cases e
      cases res with
      | none =>
        simp only [List.mem_cons] at h
        rcases h with h | h
        · cases h
        · exact absurd h hnot
      | some total =>
        have hjson : ∀ e : Event, (e = match strchr (cstr (List.take total.toNat m.response))
              (Char.ofNat 123) with
            | some json => Event.printf ("api_client_get_https: JSON body:\n".toList
                ++ json ++ "\n".toList)
            | none => Event.printf "api_client_get_https: no JSON body found\n".toList) →
            ∃ s, e = Event.printf s := by
          intro e he
          split at he <;> exact ⟨_, he⟩
        rcases List.mem_append.mp h with h | h
        · rcases List.mem_append.mp h with h | h
          · rcases List.mem_cons.mp h with h | h
            · cases h
            · exact absurd h hnot
          · simp only [List.mem_cons, List.not_mem_nil, or_false] at h
            rcases h with h | h | h | h
            · injection h with h
              rw [h]
            · cases h
            · obtain ⟨s, hs⟩ := hjson _ h
              cases hs
            · cases h
        · simp [cleanup_ssl, cleanup_drbg, cleanup_socket] at h
  · simp [hm, cleanup_ssl, cleanup_drbg, cleanup_socket] at h

/-- C3: in the read loop of `api_client_get_https` (`BUF_SIZE` = 2048), for
every script of read results in which each positive result is at most the
requested length: every read is issued at a cursor `total` with
`0 ≤ total ≤ 2047`, for a length of at least 1 with `total + length ≤ 2047`;
the final cursor lies in `0 .. 2047`; the terminator is stored at the final
cursor, an index inside the buffer, and it is stored whenever the buffer was
allocated and the loop ended; and when the script hands over 2047 bytes or
more before closing, the loop stops with `total` exactly 2047. -/
theorem read_loop_bounded (m : TlsMock)
    (hvalid : ∀ off len ret,
      Event.mbedtls_ssl_read off len ret ∈ (read_loop m m.reads 0).1 → 0 < ret → ret ≤ len) :
    (∀ off len ret, Event.mbedtls_ssl_read off len ret ∈ (read_loop m m.reads 0).1 →
      0 ≤ off ∧ off ≤ 2047 ∧ 1 ≤ len ∧ off + len ≤ 2047) ∧
    (∀ total, (read_loop m m.reads 0).2 = some total → 0 ≤ total ∧ total ≤ 2047) ∧
    (∀ i, Event.store_nul i ∈ (https_read_response m).trace →
      (read_loop m m.reads 0).2 = some i ∧ 0 ≤ i ∧ i < BUF_SIZE) ∧
    (2047 ≤ delivered m m.reads → (read_loop m m.reads 0).2 = some 2047) ∧
    (m.malloc = true → ∀ total, (read_loop m m.reads 0).2 = some total →
      Event.store_nul total ∈ (https_read_response m).trace) := by
  have hB : BUF_SIZE - 1 = 2047 := by decide
  have h := read_loop_inv m m.reads 0 (le_refl 0) (by rw [hB]; decide) hvalid
  rw [hB] at h
  refine ⟨h.1, h.2.1, ?_, ?_, ?_⟩
  · intro i hi
    have hfin := store_nul_index m i hi
    have := h.2.1 i hfin
    have hB2 : BUF_SIZE = 2048 := rfl
    exact ⟨hfin, this.1, by omega⟩
  · intro hd
    exact h.2.2 (by omega)
  · intro hm total ht
    unfold https_read_response
    simp only [hm, not_true_eq_false, if_false]
    cases hrl : read_loop m m.reads 0 with
    | mk calls res =>
      rw [hrl] at ht
      simp only at ht
      subst ht
      simp

/-- C3 on a script that offers 2000, then a would-block signal, then 47 and
500 bytes: the loop stops after the 47 with `total` = 2047. -/
theorem read_loop_bounded_witness :
    2047 ≤ delivered mock_big_response mock_big_response.reads ∧
    (read_loop mock_big_response mock_big_response.reads 0).2 = some 2047 :=
  ⟨by decide,
   (read_loop_bounded mock_big_response (by
    intro off len ret hmem hpos
    have e : (read_loop mock_big_response mock_big_response.reads 0).1 =
        [Event.mbedtls_ssl_read 0 2047 2000, Event.mbedtls_ssl_read 2000 47 (-0x6900),
         Event.mbedtls_ssl_read 2000 47 47] := by decide
    rw [e] at hmem
    simp at hmem
    omega)).2.2.2.1 (by decide)⟩

/-! ## C5: the handshake self-loop -/

/-- C5: in a run of `api_client_get_https` that reaches the handshake (URL
parsed, DNS, socket, connect, seeding, configuration and setup succeeded),
with non-zero would-block codes: if the mock answers the handshake with N
would-block signals and then 0, the handshake step is invoked exactly N+1
times and the next call is the TLS write of the request; if its first answer
is any other non-zero value, the handshake step is invoked exactly once and
neither the TLS write nor the TLS read is ever called. -/
theorem handshake_self_loop (m : TlsMock) (url : List Char) (u : ParsedURL)
    (hparse : parse_https_url (some url) 128 256 = .ok u)
    (hdns : m.gethostbyname u.host = true) (hsock : 0 ≤ m.socket) (hconn : m.connect = 0)
    (hseed : m.ctr_drbg_seed = 0) (hdef : m.ssl_config_defaults = 0)
    (hsetup : m.ssl_setup = 0) (hr : m.WANT_READ ≠ 0) (hw : m.WANT_WRITE ≠ 0) :
    (∀ sig rest, (∀ r ∈ sig, r = m.WANT_READ ∨ r = m.WANT_WRITE) →
      m.handshake = sig ++ 0 :: rest →
      (api_client_get_https m (some url)).trace.count Event.mbedtls_ssl_handshake
        = sig.length + 1 ∧
      ∃ post, (api_client_get_https m (some url)).trace =
        [Event.gethostbyname u.host, Event.socket, Event.connect 443] ++ tls_setup_calls u.host
          ++ List.replicate (sig.length + 1) Event.mbedtls_ssl_handshake
          ++ Event.mbedtls_ssl_write (request_text u.path u.host) :: post) ∧
    (∀ e rest, e ≠ 0 → e ≠ m.WANT_READ → e ≠ m.WANT_WRITE → m.handshake = e :: rest →
      (api_client_get_https m (some url)).trace.count Event.mbedtls_ssl_handshake = 1 ∧
      (∀ req, Event.mbedtls_ssl_write req ∉ (api_client_get_https m (some url)).trace) ∧
      (∀ off len ret,
        Event.mbedtls_ssl_read off len ret ∉ (api_client_get_https m (some url)).trace)) := by
  have hreach := https_reach m url u hparse hdns hsock hconn
  have hsess := https_session_handshake m u.host u.path hseed hdef hsetup
  constructor
  · intro sig rest hsig hscript
    have hloop : handshake_loop m m.handshake =
        (List.replicate (sig.length + 1) Event.mbedtls_ssl_handshake,
         some Handshake.established) := by
      rw [hscript, handshake_loop_want m sig (0 :: rest) hr hw hsig]
      simp [handshake_loop, List.replicate_succ']
    obtain ⟨post, hpost, hno⟩ := https_send_request_write m u.host u.path _
      (parse_ok_build_request url u hparse)
    have htrace : (api_client_get_https m (some url)).trace =
        [Event.gethostbyname u.host, Event.socket, Event.connect 443] ++ tls_setup_calls u.host
          ++ List.replicate (sig.length + 1) Event.mbedtls_ssl_handshake
          ++ Event.mbedtls_ssl_write (request_text u.path u.host) :: post := by
      rw [hreach, hsess, hloop]
      simp only [hpost, List.append_assoc]
    refine ⟨?_, post, htrace⟩
    rw [htrace]
    simp only [List.count_append, List.count_replicate_self, List.count_cons,
      List.count_eq_zero_of_not_mem hno]
    simp [tls_setup_calls]
  · intro e rest h0 h1 h2 hscript
    have hloop := handshake_loop_hard m e rest h0 h1 h2
    rw [← hscript] at hloop
    have htrace : (api_client_get_https m (some url)).trace =
        [Event.gethostbyname u.host, Event.socket, Event.connect 443] ++ tls_setup_calls u.host
          ++ [Event.mbedtls_ssl_handshake, Event.mbedtls_strerror e,
              Event.printf ("api_client_get_https: handshake failed: ".toList
                ++ cstr (m.strerror e) ++ "\n".toList)]
          ++ cleanup_ssl := by
      rw [hreach, hsess, hloop]
      simp only [List.append_assoc]
    rw [htrace]
    refine ⟨?_, ?_, ?_⟩
    · simp [tls_setup_calls, cleanup_ssl, cleanup_drbg, cleanup_socket]
    · intro req
      simp [tls_setup_calls, cleanup_ssl, cleanup_drbg, cleanup_socket]
    · intro off len ret
      simp [tls_setup_calls, cleanup_ssl, cleanup_drbg, cleanup_socket]

/-- C5 on the mock `mock_ok`, whose handshake answers are a would-block on
read, a would-block on write, then 0: three invocations. -/
theorem handshake_self_loop_witness :
    (api_client_get_https mock_ok (some api_url)).trace.count Event.mbedtls_ssl_handshake
      = [(-0x6900 : Int), -0x6880].length + 1 ∧
    ∃ post, (api_client_get_https mock_ok (some api_url)).trace =
      [Event.gethostbyname "sydney-umbrella.fly.dev".toList, Event.socket, Event.connect 443]
        ++ tls_setup_calls "sydney-umbrella.fly.dev".toList
        ++ List.replicate ([(-0x6900 : Int), -0x6880].length + 1) Event.mbedtls_ssl_handshake
        ++ Event.mbedtls_ssl_write
            (request_text "/api".toList "sydney-umbrella.fly.dev".toList) :: post :=
  (handshake_self_loop mock_ok api_url ⟨"sydney-umbrella.fly.dev".toList, "/api".toList⟩
    rfl rfl (by decide) rfl rfl rfl rfl (by decide) (by decide)).1
    [-0x6900, -0x6880] [] (by decide) rfl

/-! ## C6: release ordering -/

/-- C6, as stated, fails: when the DRBG seeding fails the socket is closed
without any engine-release call having been made, and when the configuration
defaults fail, `mbedtls_ssl_free` and `mbedtls_ssl_config_free` are never
called. -/
theorem seed_failure_releases_nothing :
    (api_client_get_https mock_seed_fails (some api_url)).trace =
      [Event.gethostbyname "sydney-umbrella.fly.dev".toList, Event.socket, Event.connect 443,
       Event.mbedtls_ssl_init, Event.mbedtls_ssl_config_init, Event.mbedtls_ctr_drbg_init,
       Event.mbedtls_entropy_init, Event.mbedtls_ctr_drbg_seed,
       Event.printf "api_client_get_https: ctr_drbg_seed failed\n".toList, Event.close] ∧
    (∀ e ∈ (api_client_get_https mock_seed_fails (some api_url)).trace,
      is_engine_release e = false) ∧
    Event.mbedtls_ssl_free ∉ (api_client_get_https mock_defaults_fail (some api_url)).trace ∧
    Event.mbedtls_ssl_config_free ∉
      (api_client_get_https mock_defaults_fail (some api_url)).trace := by
  decide

/-- The shape of a run that has connected its socket and returns: one `close`,
as the last call, after one of the three release sequences of the cleanup
labels. -/
theorem returned_run_shape (m : TlsMock) (url : List Char) (u : ParsedURL)
    (hparse : parse_https_url (some url) 128 256 = .ok u)
    (hdns : m.gethostbyname u.host = true) (hsock : 0 ≤ m.socket) (hconn : m.connect = 0)
    (hret : (api_client_get_https m (some url)).status ≠ none) :
    close_count (api_client_get_https m (some url)).trace = 1 ∧
    ∃ body, (∀ e ∈ body, e ≠ Event.close ∧ is_engine_release e = false) ∧
      ((m.ctr_drbg_seed ≠ 0 ∧
          (api_client_get_https m (some url)).trace = body ++ [Event.close]) ∨
       (m.ctr_drbg_seed = 0 ∧ (m.ssl_config_defaults ≠ 0 ∨ m.ssl_setup ≠ 0) ∧
          (api_client_get_https m (some url)).trace =
            body ++ [Event.mbedtls_ctr_drbg_free, Event.mbedtls_entropy_free, Event.close]) ∨
       (m.ctr_drbg_seed = 0 ∧ m.ssl_config_defaults = 0 ∧ m.ssl_setup = 0 ∧
          (api_client_get_https m (some url)).trace =
            body ++ [Event.mbedtls_ssl_close_notify, Event.mbedtls_ssl_free,
              Event.mbedtls_ssl_config_free, Event.mbedtls_ctr_drbg_free,
              Event.mbedtls_entropy_free, Event.close])) := by
  have hreach := https_reach m url u hparse hdns hsock hconn
  have key : ∃ body, (∀ e ∈ body, e ≠ Event.close ∧ is_engine_release e = false) ∧
      ((m.ctr_drbg_seed ≠ 0 ∧
          (api_client_get_https m (some url)).trace = body ++ [Event.close]) ∨
       (m.ctr_drbg_seed = 0 ∧ (m.ssl_config_defaults ≠ 0 ∨ m.ssl_setup ≠ 0) ∧
          (api_client_get_https m (some url)).trace =
            body ++ [Event.mbedtls_ctr_drbg_free, Event.mbedtls_entropy_free, Event.close]) ∨
       (m.ctr_drbg_seed = 0 ∧ m.ssl_config_defaults = 0 ∧ m.ssl_setup = 0 ∧
          (api_client_get_https m (some url)).trace =
            body ++ [Event.mbedtls_ssl_close_notify, Event.mbedtls_ssl_free,
              Event.mbedtls_ssl_config_free, Event.mbedtls_ctr_drbg_free,
              Event.mbedtls_entropy_free, Event.close])) := by
    rw [hreach] at hret ⊢
    simp only at hret ⊢
    by_cases hseed : m.ctr_drbg_seed = 0
    · by_cases hdef : m.ssl_config_defaults = 0
      · by_cases hsetup : m.ssl_setup = 0
        · rw [https_session_handshake m u.host u.path hseed hdef hsetup] at hret ⊢
          have hev := handshake_loop_events m m.handshake
          cases hloop : handshake_loop m m.handshake with
          | mk calls res =>
            rw [hloop] at hev hret
            have hsetup_calls : ∀ e ∈ tls_setup_calls u.host,
                e ≠ Event.close ∧ is_engine_release e = false := by
              intro e he
              simp [tls_setup_calls] at he
              rcases he with he | he | he | he | he | he | he | he | he | he | he <;>
                subst he <;> simp [is_engine_release]
            cases res with
            | none => exact absurd rfl hret
            | some o =>
              cases o with
              | failed r =>
                refine ⟨[Event.gethostbyname u.host, Event.socket, Event.connect 443]
                  ++ tls_setup_calls u.host ++ calls, ?_, Or.inr (Or.inr ⟨hseed, hdef, hsetup, ?_⟩)⟩
                · intro e he
                  rcases List.mem_append.mp he with he | he
                  · rcases List.mem_append.mp he with he | he
                    · simp at he
                      rcases he with he | he | he <;> subst he <;> simp [is_engine_release]
                    · exact hsetup_calls e he
                  · exact hev e he
                · simp [cleanup_ssl, cleanup_drbg, cleanup_socket]
              | established =>
                simp only at hret
                obtain ⟨body, hb, hbody⟩ := https_send_request_shape m u.host u.path hret
                refine ⟨[Event.gethostbyname u.host, Event.socket, Event.connect 443]
                  ++ tls_setup_calls u.host ++ calls ++ body, ?_,
                  Or.inr (Or.inr ⟨hseed, hdef, hsetup, ?_⟩)⟩
                · intro e he
                  rcases List.mem_append.mp he with he | he
                  · rcases List.mem_append.mp he with he | he
                    · rcases List.mem_append.mp he with he | he
                      · simp at he
                        rcases he with he | he | he <;> subst he <;> simp [is_engine_release]
                      · exact hsetup_calls e he
                    · exact hev e he
                  · have := hbody e he
                    simp [is_body_call] at this
                    exact ⟨this.1, this.2.1⟩
                · simp only [hb]
                  simp [cleanup_ssl, cleanup_drbg, cleanup_socket]
        · refine ⟨[Event.gethostbyname u.host, Event.socket, Event.connect 443,
              Event.mbedtls_ssl_init, Event.mbedtls_ssl_config_init,
              Event.mbedtls_ctr_drbg_init, Event.mbedtls_entropy_init,
              Event.mbedtls_ctr_drbg_seed, Event.mbedtls_ssl_config_defaults,
              Event.mbedtls_ssl_conf_authmode, Event.mbedtls_ssl_conf_rng,
              Event.mbedtls_ssl_setup,
              Event.printf "api_client_get_https: ssl_setup failed\n".toList], ?_,
            Or.inr (Or.inl ⟨hseed, Or.inr hsetup, ?_⟩)⟩
          · intro e he
            simp at he
            rcases he with he | he | he | he | he | he | he | he | he | he | he | he | he <;>
              subst he <;> simp [is_engine_release]
          · simp [https_session, hseed, hdef, hsetup, cleanup_drbg, cleanup_socket]
      · refine ⟨[Event.gethostbyname u.host, Event.socket, Event.connect 443,
            Event.mbedtls_ssl_init, Event.mbedtls_ssl_config_init,
            Event.mbedtls_ctr_drbg_init, Event.mbedtls_entropy_init,
            Event.mbedtls_ctr_drbg_seed, Event.mbedtls_ssl_config_defaults,
            Event.printf "api_client_get_https: ssl_config_defaults failed\n".toList], ?_,
          Or.inr (Or.inl ⟨hseed, Or.inl hdef, ?_⟩)⟩
        · intro e he
          simp at he
          rcases he with he | he | he | he | he | he | he | he | he | he <;>
            subst he <;> simp [is_engine_release]
        · simp [https_session, hseed, hdef, cleanup_drbg, cleanup_socket]
    · refine ⟨[Event.gethostbyname u.host, Event.socket, Event.connect 443,
          Event.mbedtls_ssl_init, Event.mbedtls_ssl_config_init,
          Event.mbedtls_ctr_drbg_init, Event.mbedtls_entropy_init,
          Event.mbedtls_ctr_drbg_seed,
          Event.printf "api_client_get_https: ctr_drbg_seed failed\n".toList], ?_,
        Or.inl ⟨hseed, ?_⟩⟩
      · intro e he
        simp at he
        rcases he with he | he | he | he | he | he | he | he | he <;>
          subst he <;> simp [is_engine_release]
      · simp [https_session, hseed, cleanup_socket]
  refine ⟨?_, key⟩
  obtain ⟨body, hbody, hshape⟩ := key
  have hzero : List.count Event.close body = 0 :=
    List.count_eq_zero_of_not_mem (fun h => (hbody _ h).1 rfl)
  rcases hshape with ⟨_, ht⟩ | ⟨_, _, ht⟩ | ⟨_, _, _, ht⟩ <;>
    rw [ht, close_count, List.count_append, hzero] <;> decide

/-! ### Termination of the two loops -/

/-- The handshake loop ends exactly as the final answer of its script says. -/
theorem handshake_loop_answer (m : TlsMock) (hs : List Int) :
    (handshake_loop m hs).2 =
      (handshake_answer m hs).map
        (fun a => if a = 0 then Handshake.established else Handshake.failed a) := by
  induction hs with
  | nil => rfl
  | cons r rest ih =>
    by_cases h0 : r = 0
    · subst h0
      simp [handshake_loop, handshake_answer]
    · by_cases hw : r ≠ m.WANT_READ ∧ r ≠ m.WANT_WRITE
      · simp [handshake_loop, handshake_answer, h0, hw]
      · have hp : ¬ (r = 0 ∨ (r ≠ m.WANT_READ ∧ r ≠ m.WANT_WRITE)) := by
          intro h
          rcases h with h | h
          · exact h0 h
          · exact hw h
        have e : handshake_answer m (r :: rest) = handshake_answer m rest := by
          simp only [handshake_answer, List.find?_cons, hp, decide_False]
        rw [e, ← ih]
        simp only [handshake_loop, ne_eq, h0, not_false_eq_true, if_true]
        rw [if_neg hw]

/-- A closing result in the script ends the read loop, whatever the cursor. -/
theorem read_loop_ends_of_close (m : TlsMock) (rs : List Int)
    (h : ∃ r ∈ rs, ¬ (r = m.WANT_READ ∨ r = m.WANT_WRITE) ∧ r ≤ 0) :
    ∀ total, (read_loop m rs total).2 ≠ none := by
  induction rs with
  | nil =>
    obtain ⟨r, hr, _⟩ := h
    simp at hr
  | cons x rest ih =>
    intro total
    by_cases hw : x = m.WANT_READ ∨ x = m.WANT_WRITE
    · rw [read_loop_want m x rest total hw]
      obtain ⟨r, hr, hc⟩ := h
      rcases List.mem_cons.mp hr with e | hr'
      · subst e
        exact absurd hw hc.1
      · exact ih ⟨r, hr', hc⟩ total
    · by_cases hz : x ≤ 0
      · rw [read_loop_stop m x rest total hw hz]
        simp
      · by_cases hf : total + x ≥ BUF_SIZE - 1
        · rw [read_loop_full m x rest total hw hz hf]
          simp
        · rw [read_loop_more m x rest total hw hz hf]
          obtain ⟨r, hr, hc⟩ := h
          rcases List.mem_cons.mp hr with e | hr'
          · subst e
            exact absurd hc.2 hz
          · exact ih ⟨r, hr', hc⟩ (total + x)

/-- A script that hands over enough bytes to fill the buffer ends the read
loop. -/
theorem read_loop_ends_of_full (m : TlsMock) (rs : List Int) :
    ∀ total, total < BUF_SIZE - 1 → BUF_SIZE - 1 ≤ total + delivered m rs →
      (read_loop m rs total).2 ≠ none := by
  induction rs with
  | nil =>
    intro total h1 h2
    simp only [delivered] at h2
    omega
  | cons x rest ih =>
    intro total h1 h2
    by_cases hw : x = m.WANT_READ ∨ x = m.WANT_WRITE
    · rw [read_loop_want m x rest total hw]
      simp only [delivered, hw, if_true] at h2
      exact ih total h1 h2
    · by_cases hz : x ≤ 0
      · rw [read_loop_stop m x rest total hw hz]
        simp
      · by_cases hf : total + x ≥ BUF_SIZE - 1
        · rw [read_loop_full m x rest total hw hz hf]
          simp
        · rw [read_loop_more m x rest total hw hz hf]
          simp only [delivered, hw, hz, if_false] at h2
          exact ih (total + x) (by omega) (by omega)

theorem read_loop_ends (m : TlsMock) (h : reads_end m m.reads) :
    (read_loop m m.reads 0).2 ≠ none := by
  rcases h with h | h
  · exact read_loop_ends_of_close m m.reads h 0
  · exact read_loop_ends_of_full m m.reads 0 (by decide) (by simpa using h)

/-- The response phase returns 0 when the allocation fails or the read script
lets the loop end. -/
theorem https_read_response_status (m : TlsMock)
    (h : m.malloc = false ∨ reads_end m m.reads) :
    (https_read_response m).status = some 0 := by
  unfold https_read_response
  by_cases hm : m.malloc = true
  · have hre : reads_end m m.reads := by
      rcases h with h | h
      · rw [hm] at h
        cases h
      · exact h
    have hne := read_loop_ends m hre
    simp only [hm, not_true_eq_false, if_false]
    cases hrl : read_loop m m.reads 0 with
    | mk calls res =>
      rw [hrl] at hne
      cases res with
      | none => exact absurd rfl hne
      | some total => rfl
  · simp [hm]

/-- The request phase returns 0 when the request does not fit, the write
fails, the allocation fails, or the read script lets the loop end. -/
theorem https_send_request_status (m : TlsMock) (host path : List Char)
    (h : build_request path host = none ∨ m.ssl_write (request_text path host) ≤ 0 ∨
      m.malloc = false ∨ reads_end m m.reads) :
    (https_send_request m host path).status = some 0 := by
  unfold https_send_request
  cases hb : build_request path host with
  | none => rfl
  | some req =>
    have hreq : req = request_text path host := (build_request_some _ _ _ hb).1
    subst hreq
    simp only []
    by_cases hw : m.ssl_write (request_text path host) ≤ 0
    · simp only [hw, if_true]
    · simp only [hw, if_false]
      rcases h with h | h | h
      · rw [hb] at h
        cases h
      · exact absurd h hw
      · exact https_read_response_status m h

/-- The session returns 0 on every path whose loops end. -/
theorem https_session_status (m : TlsMock) (host path : List Char) :
    (m.ctr_drbg_seed ≠ 0 → (https_session m host path).status = some 0) ∧
    (m.ctr_drbg_seed = 0 → (m.ssl_config_defaults ≠ 0 ∨ m.ssl_setup ≠ 0) →
      (https_session m host path).status = some 0) ∧
    (m.ctr_drbg_seed = 0 → m.ssl_config_defaults = 0 → m.ssl_setup = 0 →
      ∀ a, handshake_answer m m.handshake = some a →
      (a ≠ 0 ∨ build_request path host = none ∨ m.ssl_write (request_text path host) ≤ 0 ∨
        m.malloc = false ∨ reads_end m m.reads) →
      (https_session m host path).status = some 0) := by
  refine ⟨?_, ?_, ?_⟩
  · intro hseed
    simp [https_session, hseed]
  · intro hseed hfail
    by_cases hdef : m.ssl_config_defaults = 0
    · have hsetup : m.ssl_setup ≠ 0 := by
        rcases hfail with h | h
        · exact absurd hdef h
        · exact h
      simp [https_session, hseed, hdef, hsetup]
    · simp [https_session, hseed, hdef]
  · intro hseed hdef hsetup a ha hcase
    rw [https_session_handshake m host path hseed hdef hsetup]
    have hans := handshake_loop_answer m m.handshake
    rw [ha] at hans
    cases hloop : handshake_loop m m.handshake with
    | mk calls res =>
      rw [hloop] at hans
      simp only [Option.map_some'] at hans
      by_cases h0 : a = 0
      · rw [if_pos h0] at hans
        rw [hans]
        simp only []
        rcases hcase with h | h
        · exact absurd h0 h
        · exact https_send_request_status m host path h
      · rw [if_neg h0] at hans
        rw [hans]

/-! ### The claim -/

/-- C6, amended: in every run of `api_client_get_https` that has connected its
socket, the request-too-long branch cannot be taken (a parsed host and path
always fit the request buffer), and on every other path the function returns
0 with exactly one `close(sock)`, made as the last call, every engine-release
call coming before it: no release call when the DRBG seeding fails;
`mbedtls_ctr_drbg_free`, `mbedtls_entropy_free` when the configuration
defaults or the session setup fail; and, once the handshake script gives its
final answer, `mbedtls_ssl_close_notify`, `mbedtls_ssl_free`,
`mbedtls_ssl_config_free`, `mbedtls_ctr_drbg_free`, `mbedtls_entropy_free`, in
this order, when the handshake fails, the write fails, the allocation fails,
or the read script lets the read loop end (success). -/
theorem release_before_close (m : TlsMock) (url : List Char) (u : ParsedURL)
    (hparse : parse_https_url (some url) 128 256 = .ok u)
    (hdns : m.gethostbyname u.host = true) (hsock : 0 ≤ m.socket) (hconn : m.connect = 0) :
    build_request u.path u.host = some (request_text u.path u.host) ∧
    (m.ctr_drbg_seed ≠ 0 →
      (api_client_get_https m (some url)).status = some 0 ∧
      close_count (api_client_get_https m (some url)).trace = 1 ∧
      ∃ body, (∀ e ∈ body, e ≠ Event.close ∧ is_engine_release e = false) ∧
        (api_client_get_https m (some url)).trace = body ++ [Event.close]) ∧
    (m.ctr_drbg_seed = 0 → (m.ssl_config_defaults ≠ 0 ∨ m.ssl_setup ≠ 0) →
      (api_client_get_https m (some url)).status = some 0 ∧
      close_count (api_client_get_https m (some url)).trace = 1 ∧
      ∃ body, (∀ e ∈ body, e ≠ Event.close ∧ is_engine_release e = false) ∧
        (api_client_get_https m (some url)).trace =
          body ++ [Event.mbedtls_ctr_drbg_free, Event.mbedtls_entropy_free, Event.close]) ∧
    (m.ctr_drbg_seed = 0 → m.ssl_config_defaults = 0 → m.ssl_setup = 0 →
      ∀ a, handshake_answer m m.handshake = some a →
      (a ≠ 0 ∨ m.ssl_write (request_text u.path u.host) ≤ 0 ∨ m.malloc = false ∨
        reads_end m m.reads) →
      (api_client_get_https m (some url)).status = some 0 ∧
      close_count (api_client_get_https m (some url)).trace = 1 ∧
      ∃ body, (∀ e ∈ body, e ≠ Event.close ∧ is_engine_release e = false) ∧
        (api_client_get_https m (some url)).trace =
          body ++ [Event.mbedtls_ssl_close_notify, Event.mbedtls_ssl_free,
            Event.mbedtls_ssl_config_free, Event.mbedtls_ctr_drbg_free,
            Event.mbedtls_entropy_free, Event.close]) := by
  have hreach := https_reach m url u hparse hdns hsock hconn
  have hstatus : (api_client_get_https m (some url)).status =
      (https_session m u.host u.path).status := by rw [hreach]
  have hsess := https_session_status m u.host u.path
  have shape : (api_client_get_https m (some url)).status = some 0 →
      close_count (api_client_get_https m (some url)).trace = 1 ∧ _ :=
    fun h => returned_run_shape m url u hparse hdns hsock hconn (by rw [h]; simp)
  refine ⟨parse_ok_build_request url u hparse, ?_, ?_, ?_⟩
  · intro hseed
    have hs : (api_client_get_https m (some url)).status = some 0 := by
      rw [hstatus]; exact hsess.1 hseed
    obtain ⟨hcount, body, hbody, hshape⟩ := shape hs
    refine ⟨hs, hcount, body, hbody, ?_⟩
    rcases hshape with ⟨_, ht⟩ | ⟨h0, _⟩ | ⟨h0, _⟩
    · exact ht
    · exact absurd h0 hseed
    · exact absurd h0 hseed
  · intro hseed hfail
    have hs : (api_client_get_https m (some url)).status = some 0 := by
      rw [hstatus]; exact hsess.2.1 hseed hfail
    obtain ⟨hcount, body, hbody, hshape⟩ := shape hs
    refine ⟨hs, hcount, body, hbody, ?_⟩
    rcases hshape with ⟨h0, _⟩ | ⟨_, _, ht⟩ | ⟨_, hd, hsu, _⟩
    · exact absurd hseed h0
    · exact ht
    · rcases hfail with h | h
      · exact absurd hd h
      · exact absurd hsu h
  · intro hseed hdef hsetup a ha hcase
    have hs : (api_client_get_https m (some url)).status = some 0 := by
      rw [hstatus]
      refine hsess.2.2 hseed hdef hsetup a ha ?_
      rcases hcase with h | h
      · exact Or.inl h
      · exact Or.inr (Or.inr h)
    obtain ⟨hcount, body, hbody, hshape⟩ := shape hs
    refine ⟨hs, hcount, body, hbody, ?_⟩
    rcases hshape with ⟨h0, _⟩ | ⟨_, hf, _⟩ | ⟨_, _, _, ht⟩
    · exact absurd hseed h0
    · rcases hf with h | h
      · exact absurd hdef h
      · exact absurd hsetup h
    · exact ht

/-- C6, amended, on the successful run of `mock_ok` and on the run of
`mock_seed_fails`. -/
theorem release_before_close_witness :
    ((api_client_get_https mock_ok (some api_url)).status = some 0 ∧
      close_count (api_client_get_https mock_ok (some api_url)).trace = 1 ∧
      ∃ body, (∀ e ∈ body, e ≠ Event.close ∧ is_engine_release e = false) ∧
        (api_client_get_https mock_ok (some api_url)).trace =
          body ++ [Event.mbedtls_ssl_close_notify, Event.mbedtls_ssl_free,
            Event.mbedtls_ssl_config_free, Event.mbedtls_ctr_drbg_free,
            Event.mbedtls_entropy_free, Event.close]) ∧
    ((api_client_get_https mock_seed_fails (some api_url)).status = some 0 ∧
      close_count (api_client_get_https mock_seed_fails (some api_url)).trace = 1 ∧
      ∃ body, (∀ e ∈ body, e ≠ Event.close ∧ is_engine_release e = false) ∧
        (api_client_get_https mock_seed_fails (some api_url)).trace =
          body ++ [Event.close]) :=
  ⟨(release_before_close mock_ok api_url ⟨"sydney-umbrella.fly.dev".toList, "/api".toList⟩
      rfl rfl (by decide) rfl).2.2.2 rfl rfl rfl 0 rfl
      (Or.inr (Or.inr (Or.inr (Or.inl ⟨0, by decide, by decide, by decide⟩)))),
   (release_before_close mock_seed_fails api_url
      ⟨"sydney-umbrella.fly.dev".toList, "/api".toList⟩
      rfl rfl (by decide) rfl).2.1 (by decide)⟩

/-! ## C7: the status after a failed handshake -/

/-- C7 at a handshake that fails with the code -0x2700: the diagnostic is
printed and the socket is closed exactly once, but the status returned is 0,
the same as the status of the successful run, whereas the failures before the
session return the distinct statuses -2 .. -5. -/
theorem handshake_failure_returns_zero :
    (api_client_get_https mock_handshake_fails (some api_url)).status = some 0 ∧
    (api_client_get_https mock_ok (some api_url)).status = some 0 ∧
    Event.printf "api_client_get_https: handshake failed: UNKNOWN ERROR CODE\n".toList ∈
      (api_client_get_https mock_handshake_fails (some api_url)).trace ∧
    close_count (api_client_get_https mock_handshake_fails (some api_url)).trace = 1 ∧
    (api_client_get_https { mock_ok with connect := -1 } (some api_url)).status = some (-5) := by
  decide

/-- Every hard handshake error ends the run with status 0 and one `close`. -/
theorem handshake_failure_status (m : TlsMock) (url : List Char) (u : ParsedURL)
    (hparse : parse_https_url (some url) 128 256 = .ok u)
    (hdns : m.gethostbyname u.host = true) (hsock : 0 ≤ m.socket) (hconn : m.connect = 0)
    (hseed : m.ctr_drbg_seed = 0) (hdef : m.ssl_config_defaults = 0)
    (hsetup : m.ssl_setup = 0) (e : Int) (rest : List Int)
    (h0 : e ≠ 0) (h1 : e ≠ m.WANT_READ) (h2 : e ≠ m.WANT_WRITE)
    (hscript : m.handshake = e :: rest) :
    (api_client_get_https m (some url)).status = some 0 ∧
    close_count (api_client_get_https m (some url)).trace = 1 := by
  have hreach := https_reach m url u hparse hdns hsock hconn
  have hsess := https_session_handshake m u.host u.path hseed hdef hsetup
  have hloop := handshake_loop_hard m e rest h0 h1 h2
  rw [← hscript] at hloop
  rw [hreach, hsess, hloop]
  refine ⟨rfl, ?_⟩
  simp [close_count, tls_setup_calls, cleanup_ssl, cleanup_drbg, cleanup_socket]

/-! ## C8: the plain client -/

theorem stdout_append (a b : List Event) : stdout (a ++ b) = stdout a ++ stdout b := by
  simp [stdout]

theorem cstr_of_no_nul (c : List Char) (h : Char.ofNat 0 ∉ c) : cstr c = c := by
  unfold cstr
  rw [List.takeWhile_eq_self_iff]
  intro x hx
  have : x ≠ Char.ofNat 0 := fun e => h (e ▸ hx)
  simpa using this

theorem recv_loop_chunks (chunks : List (List Char)) (rest : List Recv)
    (hchunks : ∀ c ∈ chunks, 0 < c.length ∧ c.length ≤ 1023) :
    recv_loop (chunks.map Recv.data ++ rest) =
      ((chunks.map chunk_calls).flatten ++ (recv_loop rest).1, (recv_loop rest).2) := by
  induction chunks with
  | nil => simp
  | cons c cs ih =>
    have hc := hchunks c (by simp)
    have ih' := ih (fun x hx => hchunks x (by simp [hx]))
    have h1 : (c.length : Int) > 0 := by omega
    have h2 : ¬ (c.length : Int) > RECV_BUF_SIZE - 1 := by
      simp only [RECV_BUF_SIZE]
      omega
    simp only [List.map_cons, List.cons_append, recv_loop, Recv.ret, Recv.bytes, h1, h2,
      if_true, if_false, List.append_eq, ih', List.flatten_cons, chunk_calls,
      List.nil_append, List.append_assoc]

theorem stdout_printf (s : List Char) (t : List Event) :
    stdout (Event.printf s :: t) = s ++ stdout t := rfl

theorem stdout_chunk_calls (chunks : List (List Char)) :
    stdout (chunks.map chunk_calls).flatten = (chunks.map cstr).flatten := by
  induction chunks with
  | nil => rfl
  | cons c cs ih =>
    have hc : stdout (chunk_calls c) = cstr c := by
      simp [chunk_calls, stdout]
    simp only [List.map_cons, List.flatten_cons, stdout_append, ih, hc]

theorem stdout_plain_run (host path req tail : List Char) (calls : List Event) :
    stdout ([Event.gethostbyname host, Event.socket, Event.connect 80]
      ++ [Event.send req, Event.printf (banner host path)] ++ calls
      ++ [Event.recv (RECV_BUF_SIZE - 1)]
      ++ (if tail = [] then [] else [Event.printf tail])
      ++ [Event.printf "\n--- end response ---\n".toList, Event.close]) =
    banner host path ++ stdout calls ++ tail ++ "\n--- end response ---\n".toList := by
  have hsplit : stdout (if tail = [] then [] else [Event.printf tail]) = tail := by
    split
    · rename_i h
      rw [h]
      rfl
    · simp [stdout]
  simp only [stdout_append, hsplit]
  simp [stdout]

/-- C8, as stated, fails: a response that contains a NUL byte is not written
out as received; each piece is printed with `%s`, hence only up to its first
NUL.  Of the bytes `a`, NUL, `b` only `a` reaches standard output. -/
theorem api_client_get_drops_after_nul :
    (api_client_get mock_plain_nul (some "h".toList) (some "/".toList)).status = some 0 ∧
    stdout (api_client_get mock_plain_nul (some "h".toList) (some "/".toList)).trace =
      banner "h".toList "/".toList ++ ['a'] ++ "\n--- end response ---\n".toList ∧
    stdout (api_client_get mock_plain_nul (some "h".toList) (some "/".toList)).trace ≠
      banner "h".toList "/".toList ++ ['a', Char.ofNat 0, 'b']
        ++ "\n--- end response ---\n".toList := by
  decide

/-- C8, amended: for every host and path whose request fits, when resolution,
socket creation, connect and the full send succeed and the mock transport
delivers the response in non-empty pieces of at most 1023 bytes: if a
zero-length read follows, `api_client_get` returns 0 and standard output is
the banner line, each piece up to its first NUL byte, and the trailer line;
if a receive error follows, the diagnostic line with `errno` is printed before
the trailer and the status is still 0.  When no piece contains a NUL byte, what
is printed between banner and trailer (or diagnostic) is the response exactly
as received. -/
theorem api_client_get_prints_response (m : PlainMock) (host path : List Char)
    (chunks : List (List Char)) (rest : List Recv)
    (hfit : build_request path host = some (request_text path host))
    (hdns : m.gethostbyname host = true) (hsock : 0 ≤ m.socket) (hconn : m.connect = 0)
    (hsend : m.send (request_text path host) = ((request_text path host).length : Int))
    (hchunks : ∀ c ∈ chunks, 0 < c.length ∧ c.length ≤ 1023) :
    (m.recv = chunks.map Recv.data ++ Recv.data [] :: rest →
      (api_client_get m (some host) (some path)).status = some 0 ∧
      stdout (api_client_get m (some host) (some path)).trace =
        banner host path ++ (chunks.map cstr).flatten
          ++ "\n--- end response ---\n".toList) ∧
    (m.recv = chunks.map Recv.data ++ Recv.error :: rest →
      (api_client_get m (some host) (some path)).status = some 0 ∧
      stdout (api_client_get m (some host) (some path)).trace =
        banner host path ++ (chunks.map cstr).flatten
          ++ ("api_client_get: recv() failed: ".toList ++ fmt_d m.errno ++ "\n".toList)
          ++ "\n--- end response ---\n".toList) ∧
    ((∀ c ∈ chunks, Char.ofNat 0 ∉ c) → (chunks.map cstr).flatten = chunks.flatten) := by
  refine ⟨?_, ?_, ?_⟩
  · intro hrecv
    have hloop : recv_loop m.recv =
        ((chunks.map chunk_calls).flatten ++ [Event.recv (RECV_BUF_SIZE - 1)], some 0) := by
      rw [hrecv, recv_loop_chunks chunks _ hchunks]
      simp [recv_loop, Recv.ret]
    simp only [api_client_get, hdns, not_lt.mpr hsock, hconn, hfit, hsend, hloop]
    refine ⟨by simp, ?_⟩
    have h := stdout_plain_run host path (request_text path host) []
      (chunks.map chunk_calls).flatten
    simp only [if_true, stdout_chunk_calls, List.append_nil] at h
    rw [← h]
    simp [banner]
  · intro hrecv
    have hloop : recv_loop m.recv =
        ((chunks.map chunk_calls).flatten ++ [Event.recv (RECV_BUF_SIZE - 1)], some (-1)) := by
      rw [hrecv, recv_loop_chunks chunks _ hchunks]
      simp [recv_loop, Recv.ret]
    simp only [api_client_get, hdns, not_lt.mpr hsock, hconn, hfit, hsend, hloop]
    refine ⟨by simp, ?_⟩
    have h := stdout_plain_run host path (request_text path host)
      ("api_client_get: recv() failed: ".toList ++ fmt_d m.errno ++ "\n".toList)
      (chunks.map chunk_calls).flatten
    have hne : ("api_client_get: recv() failed: ".toList ++ fmt_d m.errno ++ "\n".toList)
        ≠ [] := by simp
    simp only [hne, if_false, stdout_chunk_calls] at h
    rw [← h]
    simp [banner]
  · intro hnul
    congr 1
    have : ∀ c ∈ chunks, cstr c = c := fun c hc => cstr_of_no_nul c (hnul c hc)
    calc chunks.map cstr = chunks.map id := List.map_congr_left this
      _ = chunks := List.map_id _

/-- C8, amended, on `example.com`, `/status` and the canned response
`HTTP/1.1 200 OK\r\n\r\nOK` delivered in two pieces. -/
theorem api_client_get_prints_response_witness :
    (api_client_get mock_plain (some "example.com".toList) (some "/status".toList)).status
      = some 0 ∧
    stdout (api_client_get mock_plain (some "example.com".toList)
        (some "/status".toList)).trace =
      banner "example.com".toList "/status".toList
        ++ (["HTTP/1.1 200 OK\r\n".toList, "\r\nOK".toList].map cstr).flatten
        ++ "\n--- end response ---\n".toList :=
  (api_client_get_prints_response mock_plain "example.com".toList "/status".toList
    ["HTTP/1.1 200 OK\r\n".toList, "\r\nOK".toList] []
    (by decide) rfl (by decide) rfl (by decide) (by decide)).1 rfl

end UmbrellaLight
